import Mathlib

/-!
# SOCKS5 server: protocol messages, replies and the UDP datagram codec

A shallow embedding of `auth.go`, `request.go`, `socks5.go` and `udp.go`.

* A byte is a natural number (below 256 on the wire); a Go byte slice or string is a
  list of bytes.  Conversions that truncate in Go (`byte(len(s))`, `uint16(port)`)
  carry an explicit remainder.
* A connection is the list of bytes the peer has sent and that have not been read
  yet, followed by end of stream (the `bytes.Buffer` of the repository's `mockConn`).
* Effects (writes to the connection, dials, goroutines started, map stores) are
  appended to a trace, oldest first.
* A Go `error` result is an `Option Error` (`none` is `nil`); a `(value, error)`
  result is an `Except Error value`.
* The UDP relay is modelled one step at a time: one turn of the loop of `udpForward`
  on a received datagram, and `relayToClient` on the list of the results of its
  successive reads.  The two `sync.Map`s are lists of entries; the standard-library
  calls of the relay and the method `AddrByte.String`, which no source file defines,
  are parameters (`NetLib`).
-/

namespace Socks5

/-- A Go byte slice or string: a list of bytes, each a natural number below 256. -/
abbrev Bytes := List Nat

/-- The bytes of an ASCII string literal. -/
def str (s : String) : Bytes := s.toList.map Char.toNat

/-! ## Constants (auth.go, request.go, socks5.go) -/

def SOCKS5Version : Nat := 0x05
def ReservedFeild : Nat := 0x00

def NoAuth : Nat := 0x00
def GSSAPI : Nat := 0x01
def NoAcceptable : Nat := 0xff
def UserPassword : Nat := 0x02

def IPV4Len : Nat := 4
def IPV6Len : Nat := 16

def Connect : Nat := 0x01
def Bind : Nat := 0x02
def UDPAssociate : Nat := 0x03

def IPv4 : Nat := 0x01
def DomainName : Nat := 0x03
def IPv6 : Nat := 0x04

def successReply : Nat := 0
def serverFailure : Nat := 1
def ruleFailure : Nat := 2
def networkUnreachable : Nat := 3
def hostUnreachable : Nat := 4
def connectionRefused : Nat := 5
def ttlExpired : Nat := 6
def commandNotSupported : Nat := 7
def addrTypeNotSupported : Nat := 8

def UDPprot : Int := 1080

/-- The error values of the package, the two end-of-stream errors of `io.ReadFull`,
the error of a failed `conn.Write`, and a run-time panic. -/
inductive Error where
  | ErrVersion
  | ErrInvalidMethod
  | ErrInvaildReservedField
  | ErrInvalidAddressType
  | ErrInvalidPort
  | ErrUnsupportedCommand
  /-- The value `io.EOF`. -/
  | EOF
  /-- The value `io.ErrUnexpectedEOF`. -/
  | ErrUnexpectedEOF
  /-- The error built in `auth` when no offered method is acceptable. -/
  | ErrNoMethod
  /-- The error returned by a `conn.Write` that fails. -/
  | ErrWrite
  /-- The error returned by `tcpForward` when the copy fails. -/
  | ErrCopy
  | ErrAddrType
  | ErrSocksVersion
  | ErrMethod
  | ErrBadRequest
  | ErrUDPFrag
  /-- A run-time panic (index or slice bound out of range, failed type assertion). -/
  | panic
  /-- The error of `NewAddrByteFromString` when `net.SplitHostPort` fails. -/
  | ErrSplitHostPort
  /-- The error of `NewAddrByteFromString` for a host longer than 255 bytes. -/
  | ErrHostTooLong
  /-- The error of `NewAddrByteFromString` when `strconv.ParseUint` fails. -/
  | ErrParsePort
  /-- An error of `net.ResolveUDPAddr`. -/
  | ErrResolve
  /-- An error of `ReadFrom` on a packet connection. -/
  | ErrRead
  deriving DecidableEq, Repr

/-- The `AddrSpec` of request.go.  `IP` is a `net.IP` byte slice, `none` being the nil
slice; `Port` is a Go `int`. -/
structure AddrSpec where
  IP : Option Bytes
  FQDN : Bytes
  Port : Int
  deriving DecidableEq, Repr

/-- What the code does to the outside world. -/
inductive Event where
  /-- One call `conn.Write(buf)`. -/
  | write (buf : Bytes)
  /-- One call `net.Dial("tcp", address)`. -/
  | dial (address : Bytes)
  /-- One call `client.Store(conn, clientAddr)`: the key is the connection itself. -/
  | storeClient (clientAddr : Bytes)
  /-- The statement `go udpForward(addrSpec)`. -/
  | goUDPForward (addrSpec : AddrSpec)
  /-- One call `tcpForward(conn, targetConn)`. -/
  | tcpForward
  deriving DecidableEq, Repr

/-- The local address of a dialled connection (`targetConn.LocalAddr()`). -/
structure TCPAddr where
  IP : Option Bytes
  Port : Int
  deriving DecidableEq, Repr

/-- The surroundings of one client connection: whether `conn.Write` fails, what
`conn.RemoteAddr().String()` is, what `net.Dial` answers for an address (an error
message or the new connection's local address), and what `tcpForward` returns. -/
structure Env where
  wfail : Bool
  remoteAddr : Bytes
  dial : Bytes → Except Bytes TCPAddr
  forward : Option Error

/-- The client connection while it is served: the unread input and the trace of
effects so far. -/
structure Conn where
  inp : Bytes
  trace : List Event
  deriving DecidableEq, Repr

/-- The buffers passed to `conn.Write`, oldest first. -/
def writes : List Event → List Bytes
  | [] => []
  | Event.write buf :: t => buf :: writes t
  | _ :: t => writes t

/-- The addresses passed to `net.Dial`, oldest first. -/
def dials : List Event → List Bytes
  | [] => []
  | Event.dial a :: t => a :: dials t
  | _ :: t => dials t

/-- The call `io.ReadFull(conn, buf)` with `len(buf) = n`: no read at all for `n = 0`;
`io.EOF` when the stream has ended before the first byte; `io.ErrUnexpectedEOF` when
it ends after some but not all bytes (which are consumed); the `n` bytes otherwise. -/
def readFull (c : Conn) (n : Nat) : Except Error Bytes × Conn :=
  if n = 0 then (.ok [], c)
  else if c.inp = [] then (.error .EOF, c)
  else if c.inp.length < n then (.error .ErrUnexpectedEOF, { c with inp := [] })
  else (.ok (c.inp.take n), { c with inp := c.inp.drop n })

/-- The call `conn.Write(buf)`. -/
def connWrite (e : Env) (c : Conn) (buf : Bytes) : Option Error × Conn :=
  (if e.wfail then some .ErrWrite else none, { c with trace := c.trace ++ [.write buf] })

/-! ## auth.go -/

structure ClientAuthMassage where
  Version : Nat
  NMethods : Nat
  Methods : Bytes
  deriving DecidableEq, Repr

def NewClientAuthMassage (c : Conn) : Except Error ClientAuthMassage × Conn :=
  match readFull c 2 with
  | (.error err, c1) => (.error err, c1)
  | (.ok buf, c1) =>
    if buf.getD 0 0 ≠ SOCKS5Version then (.error .ErrVersion, c1)
    else
      let nMethods := buf.getD 1 0
      match readFull c1 nMethods with
      | (.error err, c2) => (.error err, c2)
      | (.ok buf2, c2) =>
        (.ok { Version := SOCKS5Version, NMethods := nMethods, Methods := buf2 }, c2)

def NewServerAuthMassage (e : Env) (c : Conn) (method : Nat) : Option Error × Conn :=
  connWrite e c [SOCKS5Version, method]

/-! ## socks5.go: auth -/

/-- The loop of `auth` over the offered methods: `acc` becomes true at the first
`NoAuth` and the loop breaks. -/
def authLoop : Bytes → Bool
  | [] => false
  | method :: rest => if method = NoAuth then true else authLoop rest

def auth (e : Env) (c : Conn) : Option Error × Conn :=
  match NewClientAuthMassage c with
  | (.error err, c1) => (some err, c1)
  | (.ok clientMessage, c1) =>
    let acc := authLoop clientMessage.Methods
    if !acc then
      let r := NewServerAuthMassage e c1 NoAcceptable
      (some .ErrNoMethod, r.2)
    else NewServerAuthMassage e c1 NoAuth

/-! ## Go standard library: net.IP, strings, fmt, encoding/binary -/

/-- Decimal text of a number (the verb `%d`, `strconv.Itoa`). -/
def itoa (n : Nat) : Bytes := (Nat.toDigits 10 n).map Char.toNat

/-- Lower-case hexadecimal text of a number without leading zeros (`appendHex` of
net/netip). -/
def hex (n : Nat) : Bytes := (Nat.toDigits 16 n).map Char.toNat

/-- The function `strings.Contains(s, substr)`. -/
def Contains (s substr : Bytes) : Bool := s.tails.any (fun t => substr.isPrefixOf t)

/-- The function `binary.BigEndian.Uint16(b)`, which is `uint16(b[1]) | uint16(b[0])<<8`. -/
def Uint16 (b : Bytes) : Nat := ((b.getD 1 0 % 256) ||| ((b.getD 0 0 % 256) <<< 8)) % 65536

/-- The function `binary.BigEndian.PutUint16(b, v)` on a fresh 2-byte slice:
`b[0] = byte(v >> 8)`, `b[1] = byte(v)`. -/
def PutUint16 (v : Nat) : Bytes := [(v >>> 8) % 256, v % 256]

/-- The conversion `uint16(n)` of a Go `int`. -/
def toUint16 (n : Int) : Nat := (n % 65536).toNat

def isZeros (p : Bytes) : Bool := p.all (fun b => b == 0)

/-- The method `net.IP.To4`: the slice itself when it has 4 bytes, the last 4 bytes of
an IPv4-mapped 16-byte address, nil otherwise (also for the nil slice). -/
def To4 (ip : Option Bytes) : Option Bytes :=
  match ip with
  | none => none
  | some b =>
    if b.length = 4 then some b
    else if b.length = 16 ∧ isZeros (b.take 10) = true ∧ b.getD 10 0 = 0xff ∧ b.getD 11 0 = 0xff
    then some (b.drop 12)
    else none

/-- The method `net.IP.To16`: the IPv4-mapped form of a 4-byte address, the slice
itself when it has 16 bytes, nil otherwise. -/
def To16 (ip : Option Bytes) : Option Bytes :=
  match ip with
  | none => none
  | some b =>
    if b.length = 4 then some ([0, 0, 0, 0, 0, 0, 0, 0, 0, 0, 0xff, 0xff] ++ b)
    else if b.length = 16 then some b
    else none

/-- Dotted-decimal text of four bytes. -/
def string4 (p : Bytes) : Bytes :=
  itoa (p.getD 0 0) ++ str "." ++ itoa (p.getD 1 0) ++ str "." ++ itoa (p.getD 2 0)
    ++ str "." ++ itoa (p.getD 3 0)

/-- The eight 16-bit groups of a 16-byte address. -/
def groups (ip : Bytes) : List Nat :=
  (List.range 8).map (fun i => ip.getD (2 * i) 0 * 256 + ip.getD (2 * i + 1) 0)

/-- The first loop of `appendTo6` (net/netip): start and end of the longest run of at
least two zero groups, the first one on a tie; `(255, 255)` when there is none. -/
def findZeros (g : List Nat) : Nat × Nat :=
  (List.range 8).foldl
    (fun (z : Nat × Nat) i =>
      let l := ((g.drop i).takeWhile (fun x => x == 0)).length
      if l ≥ 2 ∧ l > z.2 - z.1 then (i, i + l) else z)
    (255, 255)

/-- The second loop of `appendTo6`, from group `i` on. -/
def appendTo6 (g : List Nat) (zeroStart zeroEnd : Nat) : Nat → Nat → Bytes
  | 0, _ => []
  | fuel + 1, i =>
    if i ≥ 8 then []
    else if i = zeroStart then
      str "::" ++
        (if zeroEnd ≥ 8 then []
         else hex (g.getD zeroEnd 0) ++ appendTo6 g zeroStart zeroEnd fuel (zeroEnd + 1))
    else
      (if i > 0 then str ":" else []) ++ hex (g.getD i 0)
        ++ appendTo6 g zeroStart zeroEnd fuel (i + 1)

def string6 (ip : Bytes) : Bytes :=
  let g := groups ip
  let z := findZeros g
  appendTo6 g z.1 z.2 9 0

/-- The method `net.IP.String`. -/
def ipString (ip : Bytes) : Bytes :=
  if ip.length = 0 then str "<nil>"
  else if ip.length ≠ 4 ∧ ip.length ≠ 16 then
    str "?" ++ (ip.map (fun b => hex (b / 16) ++ hex (b % 16))).flatten
  else
    match To4 (some ip) with
    | some p4 => if p4.length = 4 then string4 p4 else string6 ip
    | none => string6 ip

/-! ## request.go -/

structure ClientRequestMassage where
  Cmd : Nat
  AddrType : Nat
  Address : Bytes
  Port : Nat
  deriving DecidableEq, Repr

/-- The `switch addrType` of `NewClientRequestMassage`, reading the address and
turning it into text.  It is reached only with one of the three address types. -/
def readAddress (c : Conn) (addrType : Nat) : Except Error Bytes × Conn :=
  if addrType = IPv4 then
    match readFull c IPV4Len with
    | (.error err, c1) => (.error err, c1)
    | (.ok buf, c1) => (.ok (ipString (buf.take 4)), c1)
  else if addrType = DomainName then
    match readFull c 1 with
    | (.error err, c1) => (.error err, c1)
    | (.ok buf, c1) =>
      match readFull c1 (buf.getD 0 0) with
      | (.error err, c2) => (.error err, c2)
      | (.ok buf2, c2) => (.ok buf2, c2)
  else if addrType = IPv6 then
    match readFull c IPV6Len with
    | (.error err, c1) => (.error err, c1)
    | (.ok buf, c1) => (.ok (ipString (buf.take 16)), c1)
  else (.ok [], c)

/-- The function `NewClientRequestMassage`.  The returned message sets `Cmd`, `Address`
and `Port`; `AddrType` keeps its zero value.  (The `fmt.Printf` to standard output is
not part of the model.) -/
def NewClientRequestMassage (c : Conn) : Except Error ClientRequestMassage × Conn :=
  match readFull c 4 with
  | (.error err, c1) => (.error err, c1)
  | (.ok buf, c1) =>
    let version := buf.getD 0 0
    let command := buf.getD 1 0
    let reserved := buf.getD 2 0
    let addrType := buf.getD 3 0
    if version ≠ SOCKS5Version then (.error .ErrVersion, c1)
    else if command ≠ Connect ∧ command ≠ Bind ∧ command ≠ UDPAssociate then
      (.error .ErrUnsupportedCommand, c1)
    else if reserved ≠ ReservedFeild then (.error .ErrInvaildReservedField, c1)
    else if addrType ≠ IPv4 ∧ addrType ≠ DomainName ∧ addrType ≠ IPv6 then
      (.error .ErrInvalidAddressType, c1)
    else
      match readAddress c1 addrType with
      | (.error err, c2) => (.error err, c2)
      | (.ok address, c2) =>
        match readFull c2 2 with
        | (.error err, c3) => (.error err, c3)
        | (.ok pbuf, c3) =>
          let port := Uint16 (pbuf.drop (pbuf.length - 2))
          (.ok { Cmd := command, AddrType := 0, Address := address, Port := port }, c3)

/-- The reply bytes `SendReply` builds before the port is appended: the `switch` has
no default, so an address matching none of its four cases adds nothing. -/
def replyHead (rep : Nat) (addr : AddrSpec) : Bytes :=
  let reply := [SOCKS5Version, rep, ReservedFeild]
  if (To4 addr.IP).isSome then reply ++ [IPv4] ++ (To4 addr.IP).getD []
  else if addr.FQDN ≠ [] then
    reply ++ [DomainName] ++ [addr.FQDN.length % 256] ++ addr.FQDN
  else if (To16 addr.IP).isSome then reply ++ [IPv6] ++ (To16 addr.IP).getD []
  else if addr.IP = none then reply ++ [IPv4] ++ [0, 0, 0, 0]
  else reply

/-- The function `SendReply`; `addr = none` is the nil pointer, replaced by the zero
`AddrSpec`. -/
def SendReply (e : Env) (c : Conn) (rep : Nat) (addr : Option AddrSpec) : Option Error × Conn :=
  let addr := addr.getD { IP := none, FQDN := [], Port := 0 }
  let reply := replyHead rep addr
  let port := PutUint16 (toUint16 addr.Port)
  connWrite e c (reply ++ port)

/-! ## socks5.go: request -/

/-- The function `tcpForward`: the relay itself is outside the model, which records
that it ran and returns what the surroundings say. -/
def tcpForward (e : Env) (c : Conn) : Option Error × Conn :=
  (e.forward, { c with trace := c.trace ++ [.tcpForward] })

def handleTCPRequest (e : Env) (c : Conn) (clientMessage : ClientRequestMassage) :
    Option Error × Conn :=
  let address := clientMessage.Address ++ str ":" ++ itoa clientMessage.Port
  let c1 : Conn := { c with trace := c.trace ++ [.dial address] }
  match e.dial address with
  | .error msg =>
    let resp :=
      if Contains msg (str "refused") then connectionRefused
      else if Contains msg (str "network is unreachable") then networkUnreachable
      else hostUnreachable
    SendReply e c1 resp none
  | .ok addr =>
    let addrSpec : AddrSpec := { IP := addr.IP, FQDN := [], Port := addr.Port }
    match SendReply e c1 successReply (some addrSpec) with
    | (some err, c2) => (some err, c2)
    | (none, c2) => tcpForward e c2

def handleUDPAssociate (e : Env) (c : Conn) (_clientMessage : ClientRequestMassage) :
    Option Error × Conn :=
  let addrSpec : AddrSpec := { IP := none, FQDN := [], Port := UDPprot }
  match SendReply e c successReply (some addrSpec) with
  | (some err, c1) => (some err, c1)
  | (none, c1) =>
    (none, { c1 with trace := c1.trace ++ [.storeClient e.remoteAddr, .goUDPForward addrSpec] })

def request (e : Env) (c : Conn) : Option Error × Conn :=
  match NewClientRequestMassage c with
  | (.error err, c1) => (some err, c1)
  | (.ok clientMessage, c1) =>
    if clientMessage.Cmd = Bind then SendReply e c1 commandNotSupported none
    else if clientMessage.Cmd = UDPAssociate then handleUDPAssociate e c1 clientMessage
    else if clientMessage.AddrType = IPv6 then SendReply e c1 addrTypeNotSupported none
    else handleTCPRequest e c1 clientMessage

/-! ## udp.go -/

structure UDPDatagram where
  Rsv : Bytes
  Frag : Nat
  AType : Nat
  DstAddr : Bytes
  DstPort : Bytes
  Data : Bytes
  deriving DecidableEq, Repr

/-- The Go slice expression `b[lo:hi]` on integer bounds; it panics unless
`0 ≤ lo ≤ hi ≤ len(b)`. -/
def slice (b : Bytes) (lo hi : Int) : Except Error Bytes :=
  if 0 ≤ lo ∧ lo ≤ hi ∧ hi ≤ (b.length : Int) then .ok ((b.take hi.toNat).drop lo.toNat)
  else .error .panic

/-- The Go index expression `b[i]`; it panics unless `i < len(b)`. -/
def index (b : Bytes) (i : Nat) : Except Error Nat :=
  if i < b.length then .ok (b.getD i 0) else .error .panic

/-- The method `AddrByte.Split`; the receiver `none` is the nil slice. -/
def Split (a : Option Bytes) : Except Error (Nat × Bytes × Bytes) :=
  match a with
  | none => .ok (0, [0, 0, 0, 0], [0, 0])
  | some a =>
    match index a 0 with
    | .error err => .error err
    | .ok aType =>
      match slice a 1 ((a.length : Int) - 2) with
      | .error err => .error err
      | .ok addr =>
        match slice a ((a.length : Int) - 2) a.length with
        | .error err => .error err
        | .ok port => .ok (aType, addr, port)

def NewUDPDatagram (addrByte : Option Bytes) (data : Bytes) : Except Error UDPDatagram :=
  match Split addrByte with
  | .error err => .error err
  | .ok (atype, addr, port) =>
    .ok { Rsv := [0, 0], Frag := 0, AType := atype, DstAddr := addr, DstPort := port,
          Data := data }

def UDPDatagram.ToBytes (d : UDPDatagram) : Bytes :=
  d.Rsv ++ [d.Frag] ++ [d.AType] ++ d.DstAddr ++ d.DstPort ++ d.Data

/-- The function `NewAddrByteFromByte`.  The reads `b[0]` (the `switch`) and `b[1]` (the
domain length) are index expressions, which panic when out of range, and `b[:endPos]`
is a slice expression; each comes after the length check the source puts before it. -/
def NewAddrByteFromByte (b : Bytes) : Except Error Bytes :=
  if b.length < 1 then .error .ErrBadRequest
  else
    match index b 0 with
    | .error err => .error err
    | .ok b0 =>
      let sel : Except Error (Nat × Nat) :=
        if b0 = DomainName then
          if b.length < 2 then .error .ErrBadRequest
          else
            match index b 1 with
            | .error err => .error err
            | .ok b1 => .ok (2, b1)
        else if b0 = IPv4 then .ok (1, 4)
        else if b0 = IPv6 then .ok (1, 16)
        else .error .ErrAddrType
      match sel with
      | .error err => .error err
      | .ok (startPos, addrLen) =>
        let endPos := startPos + addrLen + 2
        if b.length < endPos then .error .ErrBadRequest else slice b 0 endPos

def NewUDPDatagramFromBytes (b : Bytes) : Except Error UDPDatagram :=
  if b.length < 4 then .error .ErrBadRequest
  else
    match slice b 3 b.length with
    | .error err => .error err
    | .ok b3 =>
      match NewAddrByteFromByte b3 with
      | .error err => .error err
      | .ok bAddr =>
        match slice b (3 + (bAddr.length : Int)) b.length with
        | .error err => .error err
        | .ok data => NewUDPDatagram (some bAddr) data

/-! ## Predicates used in the statements -/

/-- A buffer is a well-formed UDP relay datagram: reserved bytes and FRAG zero, an
address type among IPv4, domain name and IPv6, and at least as long as the header that
type requires (10 bytes; 7 plus the domain length; 22 bytes).  The payload is whatever
follows and may be empty. -/
def wellFormedDatagram (b : Bytes) : Prop :=
  b.take 3 = [0, 0, 0] ∧
  ((b.getD 3 0 = IPv4 ∧ 10 ≤ b.length) ∨
   (b.getD 3 0 = DomainName ∧ 5 ≤ b.length ∧ 7 + b.getD 4 0 ≤ b.length) ∨
   (b.getD 3 0 = IPv6 ∧ 22 ≤ b.length))

/-- An environment for the examples: writes succeed and every dial is refused. -/
def closedEnv : Env :=
  { wfail := false
    remoteAddr := str "127.0.0.1:1080"
    dial := fun _ => .error (str "dial tcp: connect: connection refused")
    forward := none }


/-- The address field of a request agrees with its address type: 4 bytes for IPv4, a
length byte followed by that many bytes for a domain name, 16 bytes for IPv6. -/
def wellFormedAddr (atyp : Nat) (addr : Bytes) : Prop :=
  (atyp = IPv4 ∧ addr.length = 4) ∨
  (atyp = DomainName ∧ ∃ dom : Bytes, addr = dom.length :: dom) ∨
  (atyp = IPv6 ∧ addr.length = 16)

/-- A buffer is a well-formed reply with code `rep`: version 5, the code, a zero
reserved byte, an address type among 1, 3 and 4, an address of the length the type
implies, and two port bytes last. -/
def wellFormedReply (rep : Nat) : Bytes → Bool
  | ver :: r :: rsv :: atyp :: rest =>
    ver == 5 && r == rep && rsv == 0 &&
      (if atyp = IPv4 then rest.length == 4 + 2
       else if atyp = DomainName then
         (match rest with
          | l :: t => t.length == l + 2
          | [] => false)
       else if atyp = IPv6 then rest.length == 16 + 2
       else false)
  | _ => false

/-- A buffer is shorter than its UDP relay header requires: fewer than 4 bytes, or,
by address type, fewer than 10 (IPv4), than 22 (IPv6), than 5 or than 7 plus the domain
length (domain name). -/
def shortDatagram (b : Bytes) : Prop :=
  b.length < 4 ∨
  (b.getD 3 0 = IPv4 ∧ b.length < 10) ∨
  (b.getD 3 0 = IPv6 ∧ b.length < 22) ∨
  (b.getD 3 0 = DomainName ∧ (b.length < 5 ∨ b.length < 7 + b.getD 4 0))

/-- A buffer has an address-type byte (offset 3) that is none of IPv4, domain name and
IPv6. -/
def unknownAddrType (b : Bytes) : Prop :=
  4 ≤ b.length ∧ b.getD 3 0 ≠ IPv4 ∧ b.getD 3 0 ≠ DomainName ∧ b.getD 3 0 ≠ IPv6

/-- The address `udpForward` listens on. -/
structure UDPAddr where
  IP : Option Bytes
  Port : Int
  deriving DecidableEq, Repr

/-- The value `&net.UDPAddr{IP: addrSpec.IP, Port: addrSpec.Port}` that `udpForward`
passes to `net.ListenUDP`. -/
def listenAddr (addrSpec : AddrSpec) : UDPAddr :=
  { IP := addrSpec.IP, Port := addrSpec.Port }

/-- The input starts with a complete auth request of version 5: the two bytes `[5, n]`
followed by at least `n` bytes. -/
def completeAuthRequest : Bytes → Prop
  | v :: n :: t => v = 5 ∧ n ≤ t.length
  | _ => False

/-! ## The UDP relay (socks5.go, udp.go) -/

/-- The parts of the surroundings the UDP relay uses: functions of Go's standard
library (`net.SplitHostPort`, `net.ParseIP`, `strconv.ParseUint(port, 10, 16)`,
`net.ResolveUDPAddr("udp", s)`), the method `AddrByte.String`, which udp.go calls
and no source file defines, whether `net.ListenPacket` fails, and the results of
`WriteTo` on an outbound socket and on the relay socket. -/
structure NetLib where
  SplitHostPort : Bytes → Except Error (Bytes × Bytes)
  ParseIP : Bytes → Option Bytes
  ParseUint : Bytes → Except Error Nat
  ResolveUDPAddr : Bytes → Except Error Bytes
  addrByteString : Bytes → Bytes
  listenFails : Bool
  senderWrite : Bytes → Bytes → Option Error
  relayerWrite : Bytes → Option Error

/-- The built-in `copy(dst, src)`: the first `min(len(dst), len(src))` bytes of `dst`
are replaced by those of `src`. -/
def copyInto (dst src : Bytes) : Bytes := src.take dst.length ++ dst.drop src.length

def NewAddrByteFromString (lib : NetLib) (s : Bytes) : Except Error Bytes :=
  match lib.SplitHostPort s with
  | .error _ => .error .ErrSplitHostPort
  | .ok (host, port) =>
    let made : Except Error Bytes :=
      match lib.ParseIP host with
      | some ip =>
        match To4 (some ip) with
        | some ip4 => .ok ([IPv4] ++ copyInto (List.replicate (4 + 2) 0) ip4)
        | none => .ok ([IPv6] ++ copyInto (List.replicate (16 + 2) 0) ip)
      | none =>
        if host.length > 255 then .error .ErrHostTooLong
        else
          .ok ([DomainName, host.length % 256]
            ++ copyInto (List.replicate (host.length + 2) 0) host)
    match made with
    | .error err => .error err
    | .ok addr =>
      match lib.ParseUint port with
      | .error _ => .error .ErrParsePort
      | .ok portNum =>
        .ok (addr.take (addr.length - 2) ++ [(portNum >>> 8) % 256, portNum % 256])

/-- The method `UDPDatagram.Address`. -/
def UDPDatagram.Address (lib : NetLib) (p : UDPDatagram) : Bytes :=
  lib.addrByteString ([p.AType] ++ p.DstAddr ++ p.DstPort)

/-- The function `relayToRemote`: its result and the calls `sender.WriteTo(data, target)`
it makes, as pairs of data and target. -/
def relayToRemote (lib : NetLib) (datagram : Bytes) : Option Error × List (Bytes × Bytes) :=
  match NewUDPDatagramFromBytes datagram with
  | .error err => (some err, [])
  | .ok d =>
    if d.Frag ≠ 0x00 then (some .ErrUDPFrag, [])
    else
      let udpTargetAddr := d.Address lib
      match lib.ResolveUDPAddr udpTargetAddr with
      | .error err => (some err, [])
      | .ok tgtUDPAddr => (lib.senderWrite d.Data tgtUDPAddr, [(d.Data, tgtUDPAddr)])

/-- A key of the two `sync.Map`s of the server: a string, or a control connection (a
`net.Conn` value, told apart by a number).  A string and a connection are never equal. -/
inductive MapKey where
  | text (s : Bytes)
  | conn (id : Nat)
  deriving DecidableEq, Repr

/-- A value of the two maps: a string, or a packet connection (a socket, told apart
by a number). -/
inductive MapValue where
  | text (s : Bytes)
  | packetConn (id : Nat)
  deriving DecidableEq, Repr

/-- The type `SenderMap`: a `sync.Map`, as the list of its entries. -/
structure SenderMap where
  entries : List (MapKey × MapValue)
  deriving DecidableEq, Repr

/-- The entries without those of key `key`. -/
def removeKey (key : MapKey) : List (MapKey × MapValue) → List (MapKey × MapValue)
  | [] => []
  | (k, v) :: t => if k = key then removeKey key t else (k, v) :: removeKey key t

/-- The first value stored under `key`. -/
def findKey (key : MapKey) : List (MapKey × MapValue) → Option MapValue
  | [] => none
  | (k, v) :: t => if k = key then some v else findKey key t

def SenderMap.Load (p : SenderMap) (key : MapKey) : Option MapValue := findKey key p.entries

def SenderMap.Store (p : SenderMap) (key : MapKey) (value : MapValue) : SenderMap :=
  { entries := (key, value) :: removeKey key p.entries }

def SenderMap.Delete (p : SenderMap) (key : MapKey) : SenderMap :=
  { entries := removeKey key p.entries }

/-- The method `SenderMap.Get`: `some s` stands for `(s, true)` and `none` for
`(nil, false)`; the type assertion `v.(net.PacketConn)` panics on a value that is not
a packet connection. -/
def SenderMap.Get (p : SenderMap) (key : Bytes) : Except Error (Option Nat) :=
  match p.Load (.text key) with
  | none => .ok none
  | some (.packetConn s) => .ok (some s)
  | some (.text _) => .error .panic

/-- The method `SenderMap.Del`: the connection returned (`none` is nil) and the map
afterwards. -/
def SenderMap.Del (p : SenderMap) (key : Bytes) : Except Error (Option Nat × SenderMap) :=
  match p.Get key with
  | .error err => .error err
  | .ok (some conn) => .ok (some conn, p.Delete (.text key))
  | .ok none => .ok (none, p)

/-- The state of the relay: the maps `client` and `senders`, the number of sockets
`net.ListenPacket` has opened (the next socket gets this number), the `relayToClient`
goroutines started (socket and client address), the calls of `WriteTo` on outbound
sockets (socket, data, target) and the sockets closed. -/
structure RelayState where
  client : SenderMap
  senders : SenderMap
  opened : Nat
  tasks : List (Nat × Bytes)
  sent : List (Nat × Bytes × Bytes)
  closed : List Nat
  deriving DecidableEq, Repr

/-- The effect on the map `client` of the calls `client.Store(conn, clientAddr)` in the
trace of control connection `id`. -/
def clientAfter (id : Nat) : List Event → SenderMap → SenderMap
  | [], m => m
  | Event.storeClient clientAddr :: t, m =>
    clientAfter id t (m.Store (.conn id) (.text clientAddr))
  | _ :: t, m => clientAfter id t m

/-- One turn of the loop of `udpForward` for a datagram read from the relay socket
with source address string `saddr`.  An error is a panic of the goroutine. -/
def udpForwardStep (lib : NetLib) (st : RelayState) (saddr datagram : Bytes) :
    Except Error RelayState :=
  match st.client.Get saddr with
  | .error err => .error err
  | .ok none => .ok st
  | .ok (some _) =>
    match st.senders.Get saddr with
    | .error err => .error err
    | .ok (some sender) =>
      let r := relayToRemote lib datagram
      .ok { st with sent := st.sent ++ r.2.map (fun w => (sender, w.1, w.2)) }
    | .ok none =>
      if lib.listenFails then .ok st
      else
        let sender := st.opened
        let r := relayToRemote lib datagram
        .ok { st with
              senders := st.senders.Store (.text saddr) (.packetConn sender)
              opened := st.opened + 1
              tasks := st.tasks ++ [(sender, saddr)]
              sent := st.sent ++ r.2.map (fun w => (sender, w.1, w.2)) }

/-- What `receiver.ReadFrom(buf)` gives on one turn of `relayToClient`: an error, or
a datagram and the string of its sender's address. -/
inductive ReadResult where
  | fail (err : Error)
  | packet (data : Bytes) (src : Bytes)
  deriving DecidableEq, Repr

/-- How a `relayToClient` task stands once the reads supplied so far are used up:
blocked in the next `ReadFrom`, or returned with an error. -/
inductive TaskResult where
  | blocked
  | returned (err : Error)
  deriving DecidableEq, Repr

/-- The function `relayToClient` on the successive results of `receiver.ReadFrom`: how
the task stands and the datagrams passed to `relayer.WriteTo`, oldest first. -/
def relayToClient (lib : NetLib) : List ReadResult → TaskResult × List Bytes
  | [] => (.blocked, [])
  | .fail err :: _ => (.returned err, [])
  | .packet data src :: rest =>
    match NewAddrByteFromString lib src with
    | .error err => (.returned err, [])
    | .ok bAddr =>
      match NewUDPDatagram (some bAddr) data with
      | .error err => (.returned err, [])
      | .ok d =>
        match lib.relayerWrite d.ToBytes with
        | some err => (.returned err, [d.ToBytes])
        | none =>
          let r := relayToClient lib rest
          (r.1, d.ToBytes :: r.2)

/-- The goroutine `udpForward` starts for a new session: `relayToClient`, then, once
it has returned, `senders.Del(saddr)` and `Close` of the socket `Del` returned. -/
def sessionTask (lib : NetLib) (st : RelayState) (saddr : Bytes) (reads : List ReadResult) :
    Except Error RelayState :=
  match (relayToClient lib reads).1 with
  | .blocked => .ok st
  | .returned _ =>
    match st.senders.Del saddr with
    | .error err => .error err
    | .ok (some sender, m) => .ok { st with senders := m, closed := st.closed ++ [sender] }
    | .ok (none, m) => .ok { st with senders := m }

/-- The read of this turn of `relayToClient` fails. -/
def readFails : ReadResult → Prop
  | .fail _ => True
  | .packet _ _ => False

/-- The sender address of the datagram read on this turn cannot be encoded. -/
def encodeFails (lib : NetLib) : ReadResult → Prop
  | .fail _ => False
  | .packet _ src => ∃ err, NewAddrByteFromString lib src = .error err

/-- The datagram read on this turn is encoded and the write back to the client fails. -/
def writeBackFails (lib : NetLib) : ReadResult → Prop
  | .fail _ => False
  | .packet data src =>
    ∃ bAddr d err, NewAddrByteFromString lib src = .ok bAddr ∧
      NewUDPDatagram (some bAddr) data = .ok d ∧ lib.relayerWrite d.ToBytes = some err

/-- Surroundings for the examples: the one address known is "1.2.3.4:53"; sockets can
be opened and every write succeeds. -/
def exampleLib : NetLib :=
  { SplitHostPort := fun s =>
      if s = str "1.2.3.4:53" then .ok (str "1.2.3.4", str "53") else .error .ErrSplitHostPort
    ParseIP := fun h =>
      if h = str "1.2.3.4" then some [0, 0, 0, 0, 0, 0, 0, 0, 0, 0, 0xff, 0xff, 1, 2, 3, 4]
      else none
    ParseUint := fun p => if p = str "53" then .ok 53 else .error .ErrParsePort
    ResolveUDPAddr := fun s => if s = str "1.2.3.4:53" then .ok s else .error .ErrResolve
    addrByteString := fun a => if a = [1, 1, 2, 3, 4, 0, 53] then str "1.2.3.4:53" else []
    listenFails := false
    senderWrite := fun _ _ => none
    relayerWrite := fun _ => none }

/-- The surroundings of the examples with a relay socket whose writes fail. -/
def failingRelayLib : NetLib :=
  { exampleLib with relayerWrite := fun _ => some .ErrWrite }


/-- The trace of `request` on the UDP_ASSOCIATE request 05 03 00 01 00 00 00 00 00 00
over a control connection whose remote address is "127.0.0.1:1080". -/
def associatedTrace : List Event :=
  (request closedEnv { inp := [0x05, 0x03, 0x00, 0x01, 0, 0, 0, 0, 0, 0], trace := [] }).2.trace

/-- The relay after that association, made on control connection 7, and before any
datagram: the map `client` holds what `handleUDPAssociate` stored. -/
def associatedState : RelayState :=
  { client := clientAfter 7 associatedTrace { entries := [] }
    senders := { entries := [] }
    opened := 0
    tasks := []
    sent := []
    closed := [] }

/-- The keys of a map are pairwise distinct: at most one entry per key. -/
def keysDistinct (m : SenderMap) : Prop := (m.entries.map Prod.fst).Nodup

/-! ## Authentication negotiation -/

theorem readFull_append (tr : List Event) (pre rest : Bytes) :
    readFull { inp := pre ++ rest, trace := tr } pre.length
      = (.ok pre, { inp := rest, trace := tr }) := by
  unfold readFull
  by_cases h0 : pre = []
  · subst h0; simp
  · have hlen : pre.length ≠ 0 := by simpa using h0
    have hne : pre ++ rest ≠ [] := by simp [h0]
    simp [hlen, hne]

theorem authLoop_eq_true_iff (ms : Bytes) : authLoop ms = true ↔ 0 ∈ ms := by
  induction ms with
  | nil => simp [authLoop]
  | cons m t ih =>
    by_cases hm : m = 0
    · simp [authLoop, NoAuth, hm]
    · have : ¬ (0 = m) := fun h => hm h.symm
      simp [authLoop, NoAuth, hm, ih, this]

theorem NewClientAuthMassage_ok (tr : List Event) (ms rest : Bytes) :
    NewClientAuthMassage { inp := 0x05 :: ms.length :: (ms ++ rest), trace := tr }
      = (.ok { Version := 5, NMethods := ms.length, Methods := ms },
         { inp := rest, trace := tr }) := by
  have h2 := readFull_append tr [0x05, ms.length] (ms ++ rest)
  have h3 := readFull_append tr ms rest
  simp only [List.length_cons, List.length_nil, List.cons_append, List.nil_append] at h2
  simp [NewClientAuthMassage, h2, h3, SOCKS5Version]

/-- C1: every auth request `[0x05, n, m1..mn]` whose method list contains 0x00, at any
position and whatever follows the request on the stream, makes `auth` write exactly
`[0x05, 0x00]` in one write and nothing else, leave the following bytes unread, and
return the result of that write: no error when the write succeeds. -/
theorem auth_accepts_noauth (e : Env) (tr : List Event) (ms rest : Bytes) (h0 : 0 ∈ ms) :
    auth e { inp := 0x05 :: ms.length :: (ms ++ rest), trace := tr }
        = (if e.wfail then some Error.ErrWrite else none,
           { inp := rest, trace := tr ++ [Event.write [0x05, 0x00]] }) ∧
    (e.wfail = false →
      auth e { inp := 0x05 :: ms.length :: (ms ++ rest), trace := tr }
        = (none, { inp := rest, trace := tr ++ [Event.write [0x05, 0x00]] })) := by
  have hacc : authLoop ms = true := (authLoop_eq_true_iff ms).2 h0
  have h : auth e { inp := 0x05 :: ms.length :: (ms ++ rest), trace := tr }
      = (if e.wfail then some Error.ErrWrite else none,
         { inp := rest, trace := tr ++ [Event.write [0x05, 0x00]] }) := by
    simp [auth, NewClientAuthMassage_ok, hacc, NewServerAuthMassage, connWrite,
      SOCKS5Version, NoAuth]
  refine ⟨h, fun hw => ?_⟩
  rw [h, hw]
  rfl

theorem auth_accepts_noauth_witness :
    (0 ∈ [0x02, 0x00, 0x01]) ∧
    auth closedEnv
        { inp := 0x05 :: [0x02, 0x00, 0x01].length :: ([0x02, 0x00, 0x01] ++ [0x05, 0x01]),
          trace := [] }
      = (none, { inp := [0x05, 0x01], trace := [] ++ [Event.write [0x05, 0x00]] }) :=
  ⟨by decide, (auth_accepts_noauth closedEnv [] [0x02, 0x00, 0x01] [0x05, 0x01] (by decide)).2 rfl⟩

/-- C2: every auth request `[0x05, n, m1..mn]` whose method list does not contain 0x00,
the empty list included, makes `auth` write exactly `[0x05, 0xFF]` and return an error,
whether or not the write succeeds. -/
theorem auth_rejects_without_noauth (e : Env) (tr : List Event) (ms rest : Bytes)
    (h0 : 0 ∉ ms) :
    auth e { inp := 0x05 :: ms.length :: (ms ++ rest), trace := tr }
      = (some Error.ErrNoMethod,
         { inp := rest, trace := tr ++ [Event.write [0x05, 0xFF]] }) := by
  have hacc : authLoop ms = false := by
    cases h : authLoop ms with
    | false => rfl
    | true => exact absurd ((authLoop_eq_true_iff ms).1 h) h0
  simp [auth, NewClientAuthMassage_ok, hacc, NewServerAuthMassage, connWrite,
    SOCKS5Version, NoAcceptable]

theorem auth_rejects_without_noauth_witness :
    (0 ∉ ([] : Bytes)) ∧
    auth closedEnv
        { inp := 0x05 :: ([] : Bytes).length :: (([] : Bytes) ++ []), trace := [] }
      = (some Error.ErrNoMethod, { inp := [], trace := [] ++ [Event.write [0x05, 0xFF]] }) :=
  ⟨by decide, auth_rejects_without_noauth _ [] [] [] (by decide)⟩

/-! ## Request parsing -/

theorem readFull_four (tr : List Event) (b0 b1 b2 b3 : Nat) (rest : Bytes) :
    readFull { inp := b0 :: b1 :: b2 :: b3 :: rest, trace := tr } 4
      = (.ok [b0, b1, b2, b3], { inp := rest, trace := tr }) :=
  readFull_append tr [b0, b1, b2, b3] rest

theorem readFull_len (tr : List Event) (pre rest : Bytes) (n : Nat) (h : pre.length = n) :
    readFull { inp := pre ++ rest, trace := tr } n
      = (.ok pre, { inp := rest, trace := tr }) := by
  subst h; exact readFull_append tr pre rest

theorem readFull_two (tr : List Event) (b0 b1 : Nat) (rest : Bytes) :
    readFull { inp := b0 :: b1 :: rest, trace := tr } 2
      = (.ok [b0, b1], { inp := rest, trace := tr }) :=
  readFull_append tr [b0, b1] rest

theorem readFull_one (tr : List Event) (b0 : Nat) (rest : Bytes) :
    readFull { inp := b0 :: rest, trace := tr } 1
      = (.ok [b0], { inp := rest, trace := tr }) :=
  readFull_append tr [b0] rest

theorem Uint16_pair (hi lo : Nat) (hhi : hi < 256) (hlo : lo < 256) :
    Uint16 [hi, lo] = 256 * hi + lo := by
  have h1 : lo ||| (hi <<< 8) = 2 ^ 8 * hi + lo := by
    rw [Nat.shiftLeft_eq, Nat.lor_comm, Nat.mul_comm hi]
    exact (Nat.mul_add_lt_is_or (by simpa using hlo) hi).symm
  simp only [Uint16, List.getD_cons_zero, List.getD_cons_succ]
  rw [Nat.mod_eq_of_lt hlo, Nat.mod_eq_of_lt hhi, h1]
  omega

theorem ipString_four (a b c d : Nat) :
    ipString [a, b, c, d] = itoa a ++ str "." ++ itoa b ++ str "." ++ itoa c ++ str "." ++ itoa d := by
  simp [ipString, To4, string4]

theorem readAddress_ok (tr : List Event) (atyp : Nat) (addr rest : Bytes)
    (h : wellFormedAddr atyp addr) :
    ∃ address, readAddress { inp := addr ++ rest, trace := tr } atyp
        = (.ok address, { inp := rest, trace := tr }) ∧
      (∀ a b c d, atyp = 1 → addr = [a, b, c, d] →
        address = itoa a ++ str "." ++ itoa b ++ str "." ++ itoa c ++ str "." ++ itoa d) ∧
      (∀ dom : Bytes, atyp = 3 → addr = dom.length :: dom → address = dom) := by
  rcases h with ⟨ht, hl⟩ | ⟨ht, dom, hd⟩ | ⟨ht, hl⟩
  · refine ⟨ipString addr, ?_, ?_, ?_⟩
    · have := readFull_len tr addr rest 4 hl
      simp [readAddress, ht, IPv4, IPV4Len, this, List.take_of_length_le (le_of_eq hl)]
    · intro a b c d _ hab
      subst hab; exact ipString_four a b c d
    · intro dom h3; simp [ht, IPv4] at h3
  · subst hd
    refine ⟨dom, ?_, ?_, ?_⟩
    · have := readFull_append tr dom rest
      simp [readAddress, ht, IPv4, DomainName, readFull_one, this]
    · intro a b c d h1; simp [ht, DomainName] at h1
    · intro dom2 _ h; simp at h; exact h.2
  · refine ⟨ipString addr, ?_, ?_, ?_⟩
    · have := readFull_len tr addr rest 16 hl
      simp [readAddress, ht, IPv4, IPv6, DomainName, IPV6Len, this,
        List.take_of_length_le (le_of_eq hl)]
    · intro a b c d h1; simp [ht, IPv6] at h1
    · intro dom h3; simp [ht, IPv6] at h3

theorem NewClientRequestMassage_wellFormed (tr : List Event) (cmd atyp hi lo : Nat)
    (addr rest : Bytes) (hcmd : cmd = 1 ∨ cmd = 2 ∨ cmd = 3)
    (haddr : wellFormedAddr atyp addr) :
    ∃ m, NewClientRequestMassage
          { inp := [0x05, cmd, 0x00, atyp] ++ addr ++ [hi, lo] ++ rest, trace := tr }
        = (.ok m, { inp := rest, trace := tr }) ∧
      m.Cmd = cmd ∧ m.AddrType = 0 ∧ m.Port = Uint16 [hi, lo] ∧
      (∀ a b c d, atyp = 1 → addr = [a, b, c, d] →
        m.Address = itoa a ++ str "." ++ itoa b ++ str "." ++ itoa c ++ str "." ++ itoa d) ∧
      (∀ dom : Bytes, atyp = 3 → addr = dom.length :: dom → m.Address = dom) := by
  obtain ⟨address, hra, h4, hdom⟩ := readAddress_ok tr atyp addr (hi :: lo :: rest) haddr
  have hat : atyp = 1 ∨ atyp = 3 ∨ atyp = 4 := by
    rcases haddr with ⟨ht, _⟩ | ⟨ht, _⟩ | ⟨ht, _⟩
    · exact Or.inl ht
    · exact Or.inr (Or.inl ht)
    · exact Or.inr (Or.inr ht)
  refine ⟨{ Cmd := cmd, AddrType := 0, Address := address, Port := Uint16 [hi, lo] },
    ?_, rfl, rfl, rfl, h4, hdom⟩
  have hc : ¬ (¬ cmd = 1 ∧ ¬ cmd = 2 ∧ ¬ cmd = 3) := by omega
  have ha : ¬ (¬ atyp = 1 ∧ ¬ atyp = 3 ∧ ¬ atyp = 4) := by omega
  simp [NewClientRequestMassage, readFull_four, SOCKS5Version, Connect, Bind, UDPAssociate,
    ReservedFeild, IPv4, DomainName, IPv6, hc, ha, hra, readFull_two]

/-- C3: on an input of at least 4 bytes the header is checked in the order version,
command, reserved, address type, and the first violated check decides the error:
`ErrVersion`, else `ErrUnsupportedCommand`, else `ErrInvaildReservedField`, else
`ErrInvalidAddressType`; in each case `request` returns that error, has read the four
header bytes only and has written nothing (its trace is unchanged). -/
theorem header_checks_in_order (e : Env) (tr : List Event) (b0 b1 b2 b3 : Nat)
    (rest : Bytes) :
    let c : Conn := { inp := b0 :: b1 :: b2 :: b3 :: rest, trace := tr }
    let c1 : Conn := { inp := rest, trace := tr }
    (b0 ≠ 5 →
      NewClientRequestMassage c = (.error Error.ErrVersion, c1) ∧
      request e c = (some Error.ErrVersion, c1)) ∧
    (b0 = 5 → (b1 ≠ 1 ∧ b1 ≠ 2 ∧ b1 ≠ 3) →
      NewClientRequestMassage c = (.error Error.ErrUnsupportedCommand, c1) ∧
      request e c = (some Error.ErrUnsupportedCommand, c1)) ∧
    (b0 = 5 → (b1 = 1 ∨ b1 = 2 ∨ b1 = 3) → b2 ≠ 0 →
      NewClientRequestMassage c = (.error Error.ErrInvaildReservedField, c1) ∧
      request e c = (some Error.ErrInvaildReservedField, c1)) ∧
    (b0 = 5 → (b1 = 1 ∨ b1 = 2 ∨ b1 = 3) → b2 = 0 → (b3 ≠ 1 ∧ b3 ≠ 3 ∧ b3 ≠ 4) →
      NewClientRequestMassage c = (.error Error.ErrInvalidAddressType, c1) ∧
      request e c = (some Error.ErrInvalidAddressType, c1)) := by
  intro c c1
  refine ⟨?_, ?_, ?_, ?_⟩
  · intro h0
    have hp : NewClientRequestMassage c = (.error Error.ErrVersion, c1) := by
      simp [c, c1, NewClientRequestMassage, readFull_four, SOCKS5Version, h0]
    exact ⟨hp, by simp [request, hp]⟩
  · intro h0 h1
    have hp : NewClientRequestMassage c = (.error Error.ErrUnsupportedCommand, c1) := by
      simp [c, c1, NewClientRequestMassage, readFull_four, SOCKS5Version, h0, Connect, Bind,
        UDPAssociate, h1]
    exact ⟨hp, by simp [request, hp]⟩
  · intro h0 h1 h2
    have hp : NewClientRequestMassage c = (.error Error.ErrInvaildReservedField, c1) := by
      rcases h1 with h1 | h1 | h1 <;>
        simp [c, c1, NewClientRequestMassage, readFull_four, SOCKS5Version, h0, Connect,
          Bind, UDPAssociate, h1, ReservedFeild, h2]
    exact ⟨hp, by simp [request, hp]⟩
  · intro h0 h1 h2 h3
    have hp : NewClientRequestMassage c = (.error Error.ErrInvalidAddressType, c1) := by
      rcases h1 with h1 | h1 | h1 <;>
        simp [c, c1, NewClientRequestMassage, readFull_four, SOCKS5Version, h0, Connect,
          Bind, UDPAssociate, h1, ReservedFeild, h2, IPv4, DomainName, IPv6, h3]
    exact ⟨hp, by simp [request, hp]⟩

theorem header_checks_in_order_witness :
    request closedEnv { inp := [0x04, 0x01, 0x00, 0x01, 192, 168, 0, 1, 0x1F, 0x90], trace := [] }
        = (some Error.ErrVersion, { inp := [192, 168, 0, 1, 0x1F, 0x90], trace := [] }) ∧
    request closedEnv { inp := [0x05, 0x04, 0x00, 0x01, 192, 168, 0, 1, 0x1F, 0x90], trace := [] }
        = (some Error.ErrUnsupportedCommand,
           { inp := [192, 168, 0, 1, 0x1F, 0x90], trace := [] }) ∧
    request closedEnv { inp := [0x05, 0x01, 0x01, 0x01, 192, 168, 0, 1, 0x1F, 0x90], trace := [] }
        = (some Error.ErrInvaildReservedField,
           { inp := [192, 168, 0, 1, 0x1F, 0x90], trace := [] }) ∧
    request closedEnv { inp := [0x05, 0x01, 0x00, 0x05, 192, 168, 0, 1, 0x1F, 0x90], trace := [] }
        = (some Error.ErrInvalidAddressType,
           { inp := [192, 168, 0, 1, 0x1F, 0x90], trace := [] }) :=
  ⟨((header_checks_in_order closedEnv [] 0x04 0x01 0x00 0x01 [192, 168, 0, 1, 0x1F, 0x90]).1
      (by decide)).2,
   ((header_checks_in_order closedEnv [] 0x05 0x04 0x00 0x01 [192, 168, 0, 1, 0x1F, 0x90]).2.1
      rfl (by decide)).2,
   ((header_checks_in_order closedEnv [] 0x05 0x01 0x01 0x01 [192, 168, 0, 1, 0x1F, 0x90]).2.2.1
      rfl (by decide) (by decide)).2,
   ((header_checks_in_order closedEnv [] 0x05 0x01 0x00 0x05 [192, 168, 0, 1, 0x1F, 0x90]).2.2.2
      rfl (by decide) rfl (by decide)).2⟩

/-- C4: a well-formed request `[0x05, cmd, 0x00, atyp] ++ addr ++ [hi, lo]` (command 1,
2 or 3; address of the shape its type requires; `hi`, `lo` bytes) is parsed
successfully, exactly its bytes are consumed (what follows stays unread), and the
message has `Cmd = cmd`, `Port = 256 * hi + lo` (zero included), the dotted-decimal
text of the four bytes as `Address` for IPv4 and the domain bytes for a domain name. -/
theorem request_parse_wellFormed (tr : List Event) (cmd atyp hi lo : Nat)
    (addr rest : Bytes) (hcmd : cmd = 1 ∨ cmd = 2 ∨ cmd = 3)
    (haddr : wellFormedAddr atyp addr) (hhi : hi < 256) (hlo : lo < 256) :
    ∃ m, NewClientRequestMassage
          { inp := [0x05, cmd, 0x00, atyp] ++ addr ++ [hi, lo] ++ rest, trace := tr }
        = (.ok m, { inp := rest, trace := tr }) ∧
      m.Cmd = cmd ∧ m.Port = 256 * hi + lo ∧
      (∀ a b c d, atyp = 1 → addr = [a, b, c, d] →
        m.Address = itoa a ++ str "." ++ itoa b ++ str "." ++ itoa c ++ str "." ++ itoa d) ∧
      (∀ dom : Bytes, atyp = 3 → addr = dom.length :: dom → m.Address = dom) := by
  obtain ⟨m, hm, hc, _, hp, h4, hd⟩ :=
    NewClientRequestMassage_wellFormed tr cmd atyp hi lo addr rest hcmd haddr
  exact ⟨m, hm, hc, by rw [hp, Uint16_pair hi lo hhi hlo], h4, hd⟩

theorem request_parse_wellFormed_witness :
    ∃ m, NewClientRequestMassage
          { inp := [0x05, 1, 0x00, 3] ++ [3, 97, 46, 98] ++ [0, 0] ++ [9], trace := [] }
        = (.ok m, { inp := [9], trace := [] }) ∧
      m.Cmd = 1 ∧ m.Port = 256 * 0 + 0 ∧
      (∀ a b c d, 3 = 1 → [3, 97, 46, 98] = [a, b, c, d] →
        m.Address = itoa a ++ str "." ++ itoa b ++ str "." ++ itoa c ++ str "." ++ itoa d) ∧
      (∀ dom : Bytes, 3 = 3 → [3, 97, 46, 98] = dom.length :: dom → m.Address = dom) :=
  request_parse_wellFormed [] 1 3 0 0 [3, 97, 46, 98] [9] (Or.inl rfl)
    (Or.inr (Or.inl ⟨rfl, [97, 46, 98], rfl⟩)) (by decide) (by decide)

/-- C5: for every well-formed BIND request, whatever its address type, address and
port, `request` makes exactly one write, of the ten bytes 05 07 00 01 00 00 00 00 00 00,
dials nothing, and reads nothing beyond the request. -/
theorem request_bind_reply (e : Env) (tr : List Event) (atyp hi lo : Nat)
    (addr rest : Bytes) (haddr : wellFormedAddr atyp addr) :
    request e { inp := [0x05, 0x02, 0x00, atyp] ++ addr ++ [hi, lo] ++ rest, trace := tr }
      = (if e.wfail then some Error.ErrWrite else none,
         { inp := rest,
           trace := tr ++ [Event.write [0x05, 0x07, 0x00, 0x01, 0, 0, 0, 0, 0, 0]] }) := by
  obtain ⟨m, hm, hc, _, _, _, _⟩ :=
    NewClientRequestMassage_wellFormed tr 2 atyp hi lo addr rest (Or.inr (Or.inl rfl)) haddr
  unfold request
  rw [hm]
  simp [hc, Bind, SendReply, replyHead, To4, To16, connWrite, PutUint16,
    toUint16, commandNotSupported, SOCKS5Version, ReservedFeild, IPv4]

theorem request_bind_reply_witness :
    request closedEnv
        { inp := [0x05, 0x02, 0x00, 1] ++ [127, 0, 0, 1] ++ [0x1F, 0x90] ++ [], trace := [] }
      = (if closedEnv.wfail then some Error.ErrWrite else none,
         { inp := [],
           trace := [] ++ [Event.write [0x05, 0x07, 0x00, 0x01, 0, 0, 0, 0, 0, 0]] }) :=
  request_bind_reply closedEnv [] 1 0x1F 0x90 [127, 0, 0, 1] [] (Or.inl ⟨rfl, rfl⟩)

/-! ## Replies and command dispatch -/

theorem Contains_iff (s substr : Bytes) : Contains s substr = true ↔ substr <:+: s := by
  simp only [Contains, List.any_eq_true, List.mem_tails, List.isPrefixOf_iff_prefix]
  constructor
  · rintro ⟨t, hts, hpt⟩
    exact List.infix_iff_prefix_suffix.2 ⟨t, hpt, hts⟩
  · intro h
    obtain ⟨t, hpt, hts⟩ := List.infix_iff_prefix_suffix.1 h
    exact ⟨t, hts, hpt⟩

theorem SendReply_nil (e : Env) (c : Conn) (rep : Nat) :
    SendReply e c rep none
      = (if e.wfail then some Error.ErrWrite else none,
         { inp := c.inp, trace := c.trace ++ [Event.write [0x05, rep, 0x00, 0x01, 0, 0, 0, 0, 0, 0]] }) := by
  simp [SendReply, replyHead, To4, To16, connWrite, PutUint16, toUint16, SOCKS5Version,
    ReservedFeild, IPv4]

/-- C6 (the code at the failing input): a well-formed CONNECT request with an IPv6
address is not answered with AddrTypeNotSupported; `request` dials the textual address
and, the dial being refused here, replies ConnectionRefused. -/
theorem request_connect_ipv6_dials :
    request closedEnv
        { inp := [0x05, 0x01, 0x00, 0x04, 0x20, 0x01, 0x0D, 0xB8, 0x85, 0xA3, 0x00, 0x00,
                  0x00, 0x00, 0x8A, 0x2E, 0x03, 0x70, 0x73, 0x34, 0x1F, 0x90],
          trace := [] }
      = (none,
         { inp := [],
           trace := [Event.dial (str "2001:db8:85a3::8a2e:370:7334:8080"),
                     Event.write [0x05, 0x05, 0x00, 0x01, 0, 0, 0, 0, 0, 0]] }) := by
  decide

/-- C7: when the dial of a CONNECT request fails with message `msg`, `handleTCPRequest`
makes exactly one write, `[0x05, rep, 0x00, 0x01, 0, 0, 0, 0, 0, 0]`, where `rep` is 5
if `msg` contains "refused" (also when it contains both substrings), otherwise 3 if it
contains "network is unreachable", otherwise 4. -/
theorem dial_failure_reply (e : Env) (c : Conn) (clientMessage : ClientRequestMassage)
    (msg : Bytes)
    (hd : e.dial (clientMessage.Address ++ str ":" ++ itoa clientMessage.Port) = .error msg) :
    ∃ rep,
      handleTCPRequest e c clientMessage
        = (if e.wfail then some Error.ErrWrite else none,
           { inp := c.inp,
             trace := c.trace
               ++ [Event.dial (clientMessage.Address ++ str ":" ++ itoa clientMessage.Port)]
               ++ [Event.write [0x05, rep, 0x00, 0x01, 0, 0, 0, 0, 0, 0]] }) ∧
      (str "refused" <:+: msg → rep = 5) ∧
      (¬ str "refused" <:+: msg → str "network is unreachable" <:+: msg → rep = 3) ∧
      (¬ str "refused" <:+: msg → ¬ str "network is unreachable" <:+: msg → rep = 4) := by
  refine ⟨if Contains msg (str "refused") then connectionRefused
      else if Contains msg (str "network is unreachable") then networkUnreachable
      else hostUnreachable, ?_, ?_, ?_, ?_⟩
  · unfold handleTCPRequest
    simp only [hd]
    rw [SendReply_nil]
  · intro h
    simp [(Contains_iff msg (str "refused")).2 h, connectionRefused]
  · intro h1 h2
    have h1 : Contains msg (str "refused") = false := by
      cases hc : Contains msg (str "refused") with
      | false => rfl
      | true => exact absurd ((Contains_iff _ _).1 hc) h1
    simp [h1, (Contains_iff msg (str "network is unreachable")).2 h2, networkUnreachable]
  · intro h1 h2
    have h1 : Contains msg (str "refused") = false := by
      cases hc : Contains msg (str "refused") with
      | false => rfl
      | true => exact absurd ((Contains_iff _ _).1 hc) h1
    have h2 : Contains msg (str "network is unreachable") = false := by
      cases hc : Contains msg (str "network is unreachable") with
      | false => rfl
      | true => exact absurd ((Contains_iff _ _).1 hc) h2
    simp [h1, h2, hostUnreachable]
theorem dial_failure_reply_witness :
    ∃ rep,
      handleTCPRequest closedEnv { inp := [], trace := [] }
          { Cmd := 1, AddrType := 0, Address := str "127.0.0.1", Port := 8080 }
        = (if closedEnv.wfail then some Error.ErrWrite else none,
           { inp := [],
             trace := []
               ++ [Event.dial (str "127.0.0.1" ++ str ":" ++ itoa 8080)]
               ++ [Event.write [0x05, rep, 0x00, 0x01, 0, 0, 0, 0, 0, 0]] }) ∧
      (str "refused" <:+: str "dial tcp: connect: connection refused" → rep = 5) ∧
      (¬ str "refused" <:+: str "dial tcp: connect: connection refused" →
        str "network is unreachable" <:+: str "dial tcp: connect: connection refused" →
        rep = 3) ∧
      (¬ str "refused" <:+: str "dial tcp: connect: connection refused" →
        ¬ str "network is unreachable" <:+: str "dial tcp: connect: connection refused" →
        rep = 4) :=
  dial_failure_reply closedEnv { inp := [], trace := [] }
    { Cmd := 1, AddrType := 0, Address := str "127.0.0.1", Port := 8080 }
    (str "dial tcp: connect: connection refused") rfl

theorem To4_length (ip : Option Bytes) (p4 : Bytes) (h : To4 ip = some p4) : p4.length = 4 := by
  cases ip with
  | none => simp [To4] at h
  | some b =>
    unfold To4 at h
    simp only at h
    split at h
    · next h4 => cases h; exact h4
    · split at h
      · next h16 =>
        cases h
        simp [List.length_drop, h16.1]
      · cases h

/-- C8: `SendReply` picks the encoded address in this order: the 4-byte form of `IP`
when it has one (type 0x01), also when `FQDN` is set; else a non-empty `FQDN` (type
0x03, a length byte, the name), also when `IP` is an IPv6 address; else a 16-byte `IP`
(type 0x04); else, with no address supplied (nil `AddrSpec`, or nil `IP` and empty
`FQDN`), type 0x01 and four zero bytes.  The two port bytes follow, in one write. -/
theorem SendReply_address_order (e : Env) (c : Conn) (rep : Nat) (addr : Option AddrSpec) :
    let a : AddrSpec := addr.getD { IP := none, FQDN := [], Port := 0 }
    let sent : Bytes → Prop := fun body =>
      SendReply e c rep addr
        = (if e.wfail then some Error.ErrWrite else none,
           { inp := c.inp,
             trace := c.trace
               ++ [Event.write ([0x05, rep, 0x00] ++ body ++ PutUint16 (toUint16 a.Port))] })
    (∀ p4, To4 a.IP = some p4 → p4.length = 4 ∧ sent ([0x01] ++ p4)) ∧
    (To4 a.IP = none → a.FQDN ≠ [] → sent ([0x03, a.FQDN.length % 256] ++ a.FQDN)) ∧
    (∀ ip, To4 a.IP = none → a.FQDN = [] → a.IP = some ip → ip.length = 16 →
      sent ([0x04] ++ ip)) ∧
    (a.IP = none → a.FQDN = [] → sent [0x01, 0, 0, 0, 0]) := by
  intro a sent
  refine ⟨?_, ?_, ?_, ?_⟩
  · intro p4 h4
    refine ⟨To4_length _ _ h4, ?_⟩
    simp [sent, a, SendReply, replyHead, connWrite, SOCKS5Version, ReservedFeild, IPv4] at h4 ⊢
    simp [h4]
  · intro h4 hf
    simp [sent, a, SendReply, replyHead, connWrite, SOCKS5Version, ReservedFeild, DomainName]
      at h4 hf ⊢
    simp [h4, hf]
  · intro ip h4 hf hip hlen
    have h16 : To16 (some ip) = some ip := by simp [To16, hlen]
    rw [hip] at h4
    simp [sent, a, SendReply, replyHead, connWrite, SOCKS5Version, ReservedFeild, IPv6]
      at hf hip ⊢
    simp [h4, hf, hip, h16]
  · intro hip hf
    simp [sent, a, SendReply, replyHead, connWrite, SOCKS5Version, ReservedFeild, IPv4]
      at hf hip ⊢
    simp [hf, hip, To4, To16]

theorem SendReply_address_order_witness :
    SendReply closedEnv { inp := [], trace := [] } 0
        (some { IP := some [10, 0, 0, 1], FQDN := str "a.b", Port := 80 })
      = (none, { inp := [], trace := [Event.write [5, 0, 0, 1, 10, 0, 0, 1, 0, 80]] }) ∧
    SendReply closedEnv { inp := [], trace := [] } 0
        (some { IP := some [0, 0, 0, 0, 0, 0, 0, 0, 0, 0, 0, 0, 0, 0, 0, 1], FQDN := str "a.b",
                Port := 80 })
      = (none, { inp := [], trace := [Event.write [5, 0, 0, 3, 3, 97, 46, 98, 0, 80]] }) ∧
    SendReply closedEnv { inp := [], trace := [] } 0
        (some { IP := some [0, 0, 0, 0, 0, 0, 0, 0, 0, 0, 0, 0, 0, 0, 0, 1], FQDN := [],
                Port := 80 })
      = (none,
         { inp := [],
           trace := [Event.write
             [5, 0, 0, 4, 0, 0, 0, 0, 0, 0, 0, 0, 0, 0, 0, 0, 0, 0, 0, 1, 0, 80]] }) ∧
    SendReply closedEnv { inp := [], trace := [] } 0 none
      = (none, { inp := [], trace := [Event.write [5, 0, 0, 1, 0, 0, 0, 0, 0, 0]] }) :=
  ⟨((SendReply_address_order closedEnv { inp := [], trace := [] } 0
        (some { IP := some [10, 0, 0, 1], FQDN := str "a.b", Port := 80 })).1
      [10, 0, 0, 1] (by decide)).2,
   (SendReply_address_order closedEnv { inp := [], trace := [] } 0
        (some { IP := some [0, 0, 0, 0, 0, 0, 0, 0, 0, 0, 0, 0, 0, 0, 0, 1], FQDN := str "a.b",
                Port := 80 })).2.1 (by decide) (by decide),
   (SendReply_address_order closedEnv { inp := [], trace := [] } 0
        (some { IP := some [0, 0, 0, 0, 0, 0, 0, 0, 0, 0, 0, 0, 0, 0, 0, 1], FQDN := [],
                Port := 80 })).2.2.1 [0, 0, 0, 0, 0, 0, 0, 0, 0, 0, 0, 0, 0, 0, 0, 1]
      (by decide) rfl rfl rfl,
   (SendReply_address_order closedEnv { inp := [], trace := [] } 0 none).2.2.2 rfl rfl⟩

/-- C9 (the code at the failing input): for an `AddrSpec` whose `IP` has three bytes
and whose `FQDN` is empty no case of the `switch` applies, and `SendReply` writes the
five bytes `[5, 0, 0, 0, 0]`: no address type and no address, not a well-formed reply. -/
theorem SendReply_malformed_on_short_IP :
    SendReply closedEnv { inp := [], trace := [] } 0
        (some { IP := some [1, 2, 3], FQDN := [], Port := 0 })
      = (none, { inp := [], trace := [Event.write [5, 0, 0, 0, 0]] }) ∧
    wellFormedReply 0 [5, 0, 0, 0, 0] = false := by
  decide

theorem SendReply_malformed_on_long_FQDN (e : Env) (c : Conn) (rep : Nat) (name : Bytes)
    (hl : name.length = 256) :
    SendReply e c rep (some { IP := none, FQDN := name, Port := 0 })
      = (if e.wfail then some Error.ErrWrite else none,
         { inp := c.inp,
           trace := c.trace ++ [Event.write ([5, rep, 0, 3, 0] ++ name ++ [0, 0])] }) ∧
    wellFormedReply rep ([5, rep, 0, 3, 0] ++ name ++ [0, 0]) = false := by
  have hne : name ≠ [] := by
    intro h; rw [h] at hl; simp at hl
  constructor
  · simp [SendReply, replyHead, To4, To16, connWrite, PutUint16, toUint16,
      SOCKS5Version, ReservedFeild, DomainName, hne, hl]
  · simp [wellFormedReply, IPv4, DomainName, hl]

theorem SendReply_wellFormed_of_valid (e : Env) (c : Conn) (rep : Nat) (a : AddrSpec)
    (h : (To4 a.IP).isSome = true ∨ (a.FQDN ≠ [] ∧ a.FQDN.length < 256) ∨
      (a.FQDN = [] ∧ (a.IP = none ∨ ∃ ip, a.IP = some ip ∧ ip.length = 16))) :
    ∃ buf, (SendReply e c rep (some a)).2 = { inp := c.inp, trace := c.trace ++ [Event.write buf] } ∧
      wellFormedReply rep buf = true := by
  refine ⟨replyHead rep a ++ PutUint16 (toUint16 a.Port), by simp [SendReply, connWrite], ?_⟩
  by_cases h4 : (To4 a.IP).isSome = true
  · obtain ⟨p4, hp4⟩ := Option.isSome_iff_exists.1 h4
    have hl := To4_length _ _ hp4
    simp [replyHead, hp4, wellFormedReply, SOCKS5Version, ReservedFeild, IPv4, PutUint16, hl]
  · rcases h with h | ⟨hf, hl⟩ | ⟨hf, hip⟩
    · exact absurd h h4
    · simp [replyHead, h4, hf, wellFormedReply, SOCKS5Version, ReservedFeild, IPv4, DomainName,
        PutUint16, Nat.mod_eq_of_lt hl]
    · rcases hip with hip | ⟨ip, hip, hl⟩
      · simp [replyHead, hf, hip, To4, To16, wellFormedReply, SOCKS5Version, ReservedFeild,
          IPv4, PutUint16]
      · have h16 : To16 (some ip) = some ip := by simp [To16, hl]
        rw [hip] at h4
        simp [replyHead, hf, hip, h4, h16, wellFormedReply, SOCKS5Version, ReservedFeild,
          IPv4, IPv6, DomainName, PutUint16, hl]

theorem request_connect_ipv6_reaches_dial (e : Env) (tr : List Event) (hi lo : Nat)
    (addr rest : Bytes) (hl : addr.length = 16) :
    ∃ m, request e
          { inp := [0x05, 0x01, 0x00, 0x04] ++ addr ++ [hi, lo] ++ rest, trace := tr }
        = handleTCPRequest e { inp := rest, trace := tr } m := by
  obtain ⟨m, hm, hc, ht, _, _, _⟩ :=
    NewClientRequestMassage_wellFormed tr 1 4 hi lo addr rest (Or.inl rfl)
      (Or.inr (Or.inr ⟨rfl, hl⟩))
  refine ⟨m, ?_⟩
  unfold request
  rw [hm]
  simp [hc, ht, Bind, UDPAssociate, IPv6]

/-! ## UDP datagram codec -/

theorem slice_nat (b : Bytes) (lo hi : Nat) (h1 : lo ≤ hi) (h2 : hi ≤ b.length) :
    slice b (lo : Int) (hi : Int) = .ok ((b.take hi).drop lo) := by
  have hc : (0 : Int) ≤ lo ∧ (lo : Int) ≤ hi ∧ (hi : Int) ≤ (b.length : Int) := by omega
  simp [slice, hc]

theorem Split_some (a : Bytes) (h : 3 ≤ a.length) :
    Split (some a)
      = .ok (a.getD 0 0, (a.take (a.length - 2)).drop 1, a.drop (a.length - 2)) := by
  have e1 : ((a.length : Int) - 2) = ((a.length - 2 : Nat) : Int) := by omega
  have s1 := slice_nat a 1 (a.length - 2) (by omega) (by omega)
  have s2 := slice_nat a (a.length - 2) a.length (by omega) (le_refl _)
  have hi : index a 0 = .ok (a.getD 0 0) := by
    have : 0 < a.length := by omega
    simp [index, this]
  simp only [Split, hi, e1]
  simp only [Nat.cast_one] at s1
  rw [s1, s2]
  simp

theorem Split_concat (a : Bytes) (h : 3 ≤ a.length) :
    [a.getD 0 0] ++ (a.take (a.length - 2)).drop 1 ++ a.drop (a.length - 2) = a := by
  cases a with
  | nil => simp at h
  | cons x t =>
    have h2 : (x :: t).length - 2 = (t.length - 2) + 1 := by simp at h ⊢; omega
    rw [h2]
    simp [List.take_append_drop]

theorem index_lt (b : Bytes) (i : Nat) (h : i < b.length) : index b i = .ok (b.getD i 0) := by
  simp [index, h]

/-- Behind its two length checks `NewAddrByteFromByte` reads `b[0]` and `b[1]` in range:
the index expressions never panic, and the function computes what the same body does
with the bytes taken directly. -/
theorem NewAddrByteFromByte_unfold (b : Bytes) :
    NewAddrByteFromByte b =
      if b.length < 1 then .error .ErrBadRequest
      else
        let sel : Except Error (Nat × Nat) :=
          if b.getD 0 0 = DomainName then
            if b.length < 2 then .error .ErrBadRequest else .ok (2, b.getD 1 0)
          else if b.getD 0 0 = IPv4 then .ok (1, 4)
          else if b.getD 0 0 = IPv6 then .ok (1, 16)
          else .error .ErrAddrType
        match sel with
        | .error err => .error err
        | .ok (startPos, addrLen) =>
          let endPos := startPos + addrLen + 2
          if b.length < endPos then .error .ErrBadRequest else slice b 0 endPos := by
  unfold NewAddrByteFromByte
  by_cases h1 : b.length < 1
  · simp only [h1, if_true]
  · have i0 := index_lt b 0 (by omega)
    simp only [h1, if_false, i0]
    by_cases h2 : b.length < 2
    · simp only [h2, if_true]
    · have i1 := index_lt b 1 (by omega)
      simp only [h2, if_false, i1]

theorem NewAddrByteFromByte_ok (b3 : Bytes) (n : Nat)
    (h : (b3.getD 0 0 = 1 ∧ n = 7) ∨ (b3.getD 0 0 = 3 ∧ n = 4 + b3.getD 1 0) ∨
      (b3.getD 0 0 = 4 ∧ n = 19))
    (hn : n ≤ b3.length) : NewAddrByteFromByte b3 = .ok (b3.take n) := by
  have h1 : ¬ b3.length < 1 := by omega
  have h2 : ¬ b3.length < 2 := by omega
  have hs := slice_nat b3 0 n (Nat.zero_le _) hn
  simp only [Nat.cast_zero, List.drop_zero] at hs
  rw [NewAddrByteFromByte_unfold]
  rcases h with ⟨ht, rfl⟩ | ⟨ht, rfl⟩ | ⟨ht, rfl⟩
  · have hl : ¬ b3.length < 7 := by omega
    simp only [h1, ht, IPv4, DomainName, if_false, if_true]
    simpa [hl] using hs
  · have hl : ¬ b3.length < 2 + b3.getD 1 0 + 2 := by omega
    simp only [h1, h2, ht, DomainName, if_false, if_true, hl]
    rw [show (2 + b3.getD 1 0 + 2) = 4 + b3.getD 1 0 by omega]
    simpa using hs
  · have hl : ¬ b3.length < 19 := by omega
    simp only [h1, ht, IPv4, IPv6, DomainName, if_false, if_true]
    simpa [hl] using hs

/-- C10: for every well-formed UDP relay datagram `b` (reserved bytes and FRAG zero,
address type IPv4, domain or IPv6, at least as long as the header its type requires,
any payload, the empty one included) decoding succeeds and re-encoding the decoded
datagram gives `b` back byte for byte. -/
theorem decode_encode_roundtrip (b : Bytes) (h : wellFormedDatagram b) :
    ∃ d, NewUDPDatagramFromBytes b = .ok d ∧ d.ToBytes = b := by
  obtain ⟨hz, ht⟩ := h
  have hlen4 : 7 ≤ b.length := by
    rcases ht with ⟨_, h⟩ | ⟨_, _, h⟩ | ⟨_, h⟩ <;> omega
  have hg0 : (b.drop 3).getD 0 0 = b.getD 3 0 := by simp [List.getD_eq_getElem?_getD]
  have hg1 : (b.drop 3).getD 1 0 = b.getD 4 0 := by simp [List.getD_eq_getElem?_getD]
  have hl3 : (b.drop 3).length = b.length - 3 := by simp
  obtain ⟨n, hn4, hnle, hA⟩ : ∃ n, 4 ≤ n ∧ n ≤ b.length - 3 ∧
      NewAddrByteFromByte (b.drop 3) = .ok ((b.drop 3).take n) := by
    rcases ht with ⟨ht, hl⟩ | ⟨ht, _, hl⟩ | ⟨ht, hl⟩
    · refine ⟨7, by omega, by omega, NewAddrByteFromByte_ok _ 7 (Or.inl ⟨?_, rfl⟩) (by omega)⟩
      rw [hg0, ht]; rfl
    · refine ⟨4 + b.getD 4 0, by omega, by omega,
        NewAddrByteFromByte_ok _ _ (Or.inr (Or.inl ⟨?_, ?_⟩)) (by omega)⟩
      · rw [hg0, ht]; rfl
      · rw [hg1]
    · refine ⟨19, by omega, by omega,
        NewAddrByteFromByte_ok _ 19 (Or.inr (Or.inr ⟨?_, rfl⟩)) (by omega)⟩
      rw [hg0, ht]; rfl
  have hbl : ((b.drop 3).take n).length = n := by
    rw [List.length_take, hl3]; omega
  have s3 := slice_nat b 3 b.length (by omega) (le_refl _)
  have sd := slice_nat b (3 + n) b.length (by omega) (le_refl _)
  have hsp := Split_some ((b.drop 3).take n) (by omega)
  have hcat := Split_concat ((b.drop 3).take n) (by omega)
  rw [hbl] at hsp hcat
  refine ⟨{ Rsv := [0, 0], Frag := 0, AType := ((b.drop 3).take n).getD 0 0,
            DstAddr := (((b.drop 3).take n).take (n - 2)).drop 1,
            DstPort := ((b.drop 3).take n).drop (n - 2),
            Data := b.drop (3 + n) }, ?_, ?_⟩
  · have hlt : ¬ b.length < 4 := by omega
    simp only [NewUDPDatagramFromBytes, hlt, if_false]
    simp only [Nat.cast_ofNat, List.take_length] at s3
    rw [s3]
    simp only [hA, hbl]
    have e : (3 : Int) + (n : Int) = ((3 + n : Nat) : Int) := by omega
    rw [e, sd]
    simp only [NewUDPDatagram, hsp, List.take_length]
  · simp only [UDPDatagram.ToBytes]
    have h1 : [0, 0] ++ [0] ++ [((b.drop 3).take n).getD 0 0]
          ++ (((b.drop 3).take n).take (n - 2)).drop 1
          ++ ((b.drop 3).take n).drop (n - 2)
        = [0, 0, 0] ++ ([((b.drop 3).take n).getD 0 0]
          ++ (((b.drop 3).take n).take (n - 2)).drop 1
          ++ ((b.drop 3).take n).drop (n - 2)) := by simp
    rw [h1, hcat, ← hz]
    have h2 : b.drop (3 + n) = (b.drop 3).drop n := by
      rw [List.drop_drop, Nat.add_comm]
    rw [h2, List.append_assoc, List.take_append_drop, List.take_append_drop]

theorem decode_encode_roundtrip_witness :
    ∃ d, NewUDPDatagramFromBytes [0, 0, 0, 3, 2, 97, 98, 0, 80] = .ok d ∧
      d.ToBytes = [0, 0, 0, 3, 2, 97, 98, 0, 80] :=
  decode_encode_roundtrip [0, 0, 0, 3, 2, 97, 98, 0, 80]
    ⟨rfl, Or.inr (Or.inl ⟨rfl, by decide, by decide⟩)⟩

theorem NewAddrByteFromByte_short (b3 : Bytes)
    (h : b3.length < 1 ∨ (b3.getD 0 0 = 1 ∧ b3.length < 7) ∨ (b3.getD 0 0 = 4 ∧ b3.length < 19) ∨
      (b3.getD 0 0 = 3 ∧ (b3.length < 2 ∨ b3.length < 4 + b3.getD 1 0))) :
    NewAddrByteFromByte b3 = .error Error.ErrBadRequest := by
  simp only [List.getD_eq_getElem?_getD] at h
  by_cases h1 : b3.length < 1
  · simp [NewAddrByteFromByte_unfold, h1]
  · rcases h with h | ⟨ht, hl⟩ | ⟨ht, hl⟩ | ⟨ht, hl⟩
    · exact absurd h h1
    · simp [NewAddrByteFromByte_unfold, h1, ht, IPv4, DomainName, hl]
    · simp [NewAddrByteFromByte_unfold, h1, ht, IPv4, IPv6, DomainName, hl]
    · by_cases h2 : b3.length < 2
      · simp [NewAddrByteFromByte_unfold, h1, ht, DomainName, h2]
      · have hl2 : b3.length < 2 + b3[1]?.getD 0 + 2 := by omega
        simp [NewAddrByteFromByte_unfold, h1, ht, DomainName, h2, hl2]

theorem NewAddrByteFromByte_unknown (b3 : Bytes) (h1 : 1 ≤ b3.length)
    (h : b3.getD 0 0 ≠ 1 ∧ b3.getD 0 0 ≠ 3 ∧ b3.getD 0 0 ≠ 4) :
    NewAddrByteFromByte b3 = .error Error.ErrAddrType := by
  have h1 : ¬ b3.length < 1 := by omega
  simp only [List.getD_eq_getElem?_getD] at h
  simp [NewAddrByteFromByte_unfold, h1, h.1, h.2.1, h.2.2, IPv4, IPv6, DomainName]

theorem drop3_getD (b : Bytes) (i : Nat) : (b.drop 3).getD i 0 = b.getD (3 + i) 0 := by
  simp [List.getD_eq_getElem?_getD]

theorem slice_from3 (b : Bytes) (h : 4 ≤ b.length) :
    slice b 3 b.length = .ok (b.drop 3) := by
  have s3 := slice_nat b 3 b.length (by omega) (le_refl _)
  simpa using s3

/-- A datagram long enough for its address type decodes: the address blob is the `n`
bytes from offset 3 (`n` is 7, 4 plus the domain length, or 19), the payload the rest. -/
theorem NewUDPDatagramFromBytes_long (b : Bytes)
    (ht : (b.getD 3 0 = IPv4 ∧ 10 ≤ b.length) ∨
      (b.getD 3 0 = DomainName ∧ 5 ≤ b.length ∧ 7 + b.getD 4 0 ≤ b.length) ∨
      (b.getD 3 0 = IPv6 ∧ 22 ≤ b.length)) :
    ∃ n, 4 ≤ n ∧ n ≤ b.length - 3 ∧
      NewUDPDatagramFromBytes b
        = .ok { Rsv := [0, 0], Frag := 0, AType := ((b.drop 3).take n).getD 0 0,
                DstAddr := (((b.drop 3).take n).take (n - 2)).drop 1,
                DstPort := ((b.drop 3).take n).drop (n - 2),
                Data := b.drop (3 + n) } := by
  have hlen4 : 7 ≤ b.length := by
    rcases ht with ⟨_, h⟩ | ⟨_, _, h⟩ | ⟨_, h⟩ <;> omega
  have hg0 : (b.drop 3).getD 0 0 = b.getD 3 0 := drop3_getD b 0
  have hg1 : (b.drop 3).getD 1 0 = b.getD 4 0 := drop3_getD b 1
  have hl3 : (b.drop 3).length = b.length - 3 := by simp
  obtain ⟨n, hn4, hnle, hA⟩ : ∃ n, 4 ≤ n ∧ n ≤ b.length - 3 ∧
      NewAddrByteFromByte (b.drop 3) = .ok ((b.drop 3).take n) := by
    rcases ht with ⟨ht, hl⟩ | ⟨ht, _, hl⟩ | ⟨ht, hl⟩
    · refine ⟨7, by omega, by omega, NewAddrByteFromByte_ok _ 7 (Or.inl ⟨?_, rfl⟩) (by omega)⟩
      rw [hg0, ht]; rfl
    · refine ⟨4 + b.getD 4 0, by omega, by omega,
        NewAddrByteFromByte_ok _ _ (Or.inr (Or.inl ⟨?_, ?_⟩)) (by omega)⟩
      · rw [hg0, ht]; rfl
      · rw [hg1]
    · refine ⟨19, by omega, by omega,
        NewAddrByteFromByte_ok _ 19 (Or.inr (Or.inr ⟨?_, rfl⟩)) (by omega)⟩
      rw [hg0, ht]; rfl
  have hbl : ((b.drop 3).take n).length = n := by
    rw [List.length_take, hl3]; omega
  have sd := slice_nat b (3 + n) b.length (by omega) (le_refl _)
  have hsp := Split_some ((b.drop 3).take n) (by omega)
  rw [hbl] at hsp
  refine ⟨n, hn4, hnle, ?_⟩
  have hlt : ¬ b.length < 4 := by omega
  simp only [NewUDPDatagramFromBytes, hlt, if_false]
  rw [slice_from3 b (by omega)]
  simp only [hA, hbl]
  have e : (3 : Int) + (n : Int) = ((3 + n : Nat) : Int) := by omega
  rw [e, sd]
  simp only [NewUDPDatagram, hsp, List.take_length]

theorem NewUDPDatagramFromBytes_short (b : Bytes) (h : shortDatagram b) :
    NewUDPDatagramFromBytes b = .error Error.ErrBadRequest := by
  by_cases h4 : b.length < 4
  · simp [NewUDPDatagramFromBytes, h4]
  · have hs : NewAddrByteFromByte (b.drop 3) = .error Error.ErrBadRequest := by
      have hg0 : (b.drop 3).getD 0 0 = b.getD 3 0 := drop3_getD b 0
      have hg1 : (b.drop 3).getD 1 0 = b.getD 4 0 := drop3_getD b 1
      apply NewAddrByteFromByte_short
      rw [hg0, hg1]
      simp only [List.length_drop]
      rcases h with h | ⟨ht, hl⟩ | ⟨ht, hl⟩ | ⟨ht, hl⟩
      · exact absurd h h4
      · exact Or.inr (Or.inl ⟨ht, by omega⟩)
      · exact Or.inr (Or.inr (Or.inl ⟨ht, by omega⟩))
      · exact Or.inr (Or.inr (Or.inr ⟨ht, by omega⟩))
    simp only [NewUDPDatagramFromBytes, h4, if_false]
    rw [slice_from3 b (by omega)]
    simp only [hs]

theorem NewUDPDatagramFromBytes_unknown (b : Bytes) (h : unknownAddrType b) :
    NewUDPDatagramFromBytes b = .error Error.ErrAddrType := by
  obtain ⟨h4, h1, h3, h6⟩ := h
  have hs : NewAddrByteFromByte (b.drop 3) = .error Error.ErrAddrType := by
    apply NewAddrByteFromByte_unknown
    · simp only [List.length_drop]; omega
    · have hg0 : (b.drop 3).getD 0 0 = b.getD 3 0 := drop3_getD b 0
      rw [hg0]; exact ⟨h1, h3, h6⟩
  have hlt : ¬ b.length < 4 := by omega
  simp only [NewUDPDatagramFromBytes, hlt, if_false]
  rw [slice_from3 b h4]
  simp only [hs]

/-- The three outcomes of decoding are exhaustive and pairwise exclusive. -/
theorem datagram_cases (b : Bytes) :
    (shortDatagram b ∧ ¬ unknownAddrType b) ∨ (unknownAddrType b ∧ ¬ shortDatagram b) ∨
    (¬ shortDatagram b ∧ ¬ unknownAddrType b ∧
      ((b.getD 3 0 = IPv4 ∧ 10 ≤ b.length) ∨
       (b.getD 3 0 = DomainName ∧ 5 ≤ b.length ∧ 7 + b.getD 4 0 ≤ b.length) ∨
       (b.getD 3 0 = IPv6 ∧ 22 ≤ b.length))) := by
  unfold shortDatagram unknownAddrType
  simp only [IPv4, IPv6, DomainName]
  omega

/-- C11: for every buffer `b`, decoding fails with `ErrBadRequest` exactly when `b` is
shorter than its header requires (fewer than 4 bytes; IPv4 and fewer than 10; IPv6 and
fewer than 22; domain and fewer than 5 or than 7 plus the domain length), fails with
`ErrAddrType` exactly when `b` has at least 4 bytes and byte 3 is not 1, 3 or 4, and
succeeds exactly in the remaining cases. -/
theorem decode_outcomes (b : Bytes) :
    (NewUDPDatagramFromBytes b = .error Error.ErrBadRequest ↔ shortDatagram b) ∧
    (NewUDPDatagramFromBytes b = .error Error.ErrAddrType ↔ unknownAddrType b) ∧
    ((∃ d, NewUDPDatagramFromBytes b = .ok d) ↔ ¬ shortDatagram b ∧ ¬ unknownAddrType b) := by
  rcases datagram_cases b with ⟨hs, hu⟩ | ⟨hu, hs⟩ | ⟨hs, hu, hl⟩
  · have h := NewUDPDatagramFromBytes_short b hs
    simp [h, hs, hu]
  · have h := NewUDPDatagramFromBytes_unknown b hu
    simp [h, hs, hu]
  · obtain ⟨n, _, _, h⟩ := NewUDPDatagramFromBytes_long b hl
    simp [h, hs, hu]

theorem decode_outcomes_witness :
    (NewUDPDatagramFromBytes [0, 0, 0, 3, 2, 97, 98, 0] = .error Error.ErrBadRequest ↔
      shortDatagram [0, 0, 0, 3, 2, 97, 98, 0]) ∧
    (NewUDPDatagramFromBytes [0, 0, 0, 3, 2, 97, 98, 0] = .error Error.ErrAddrType ↔
      unknownAddrType [0, 0, 0, 3, 2, 97, 98, 0]) ∧
    ((∃ d, NewUDPDatagramFromBytes [0, 0, 0, 3, 2, 97, 98, 0] = .ok d) ↔
      ¬ shortDatagram [0, 0, 0, 3, 2, 97, 98, 0] ∧
      ¬ unknownAddrType [0, 0, 0, 3, 2, 97, 98, 0]) :=
  decode_outcomes [0, 0, 0, 3, 2, 97, 98, 0]

/-- C12: for every address blob `[atyp] ++ addr ++ [hi, lo]` (whatever the shape of
`addr`, so in particular 4 bytes, a length byte plus that many bytes, or 16 bytes) and
every payload `d`, `NewUDPDatagram` succeeds with `Rsv = [0, 0]`, `Frag = 0` and the
payload unchanged, and `ToBytes` gives `[0, 0, 0, atyp] ++ addr ++ [hi, lo] ++ d`. -/
theorem encode_layout (atyp hi lo : Nat) (addr d : Bytes) :
    ∃ dg, NewUDPDatagram (some ([atyp] ++ addr ++ [hi, lo])) d = .ok dg ∧
      dg.Rsv = [0, 0] ∧ dg.Frag = 0 ∧ dg.AType = atyp ∧ dg.DstAddr = addr ∧
      dg.DstPort = [hi, lo] ∧ dg.Data = d ∧
      dg.ToBytes = [0x00, 0x00, 0x00, atyp] ++ addr ++ [hi, lo] ++ d := by
  have hlen : ([atyp] ++ addr ++ [hi, lo]).length = addr.length + 3 := by simp
  have hsp := Split_some ([atyp] ++ addr ++ [hi, lo]) (by omega)
  have h0 : ([atyp] ++ addr ++ [hi, lo]).getD 0 0 = atyp := by simp
  have h1 : (([atyp] ++ addr ++ [hi, lo]).take (([atyp] ++ addr ++ [hi, lo]).length - 2)).drop 1
      = addr := by
    rw [hlen, show addr.length + 3 - 2 = addr.length + 1 by omega]
    simp
  have h2 : ([atyp] ++ addr ++ [hi, lo]).drop (([atyp] ++ addr ++ [hi, lo]).length - 2)
      = [hi, lo] := by
    rw [hlen, show addr.length + 3 - 2 = addr.length + 1 by omega]
    simp
  rw [h0, h1, h2] at hsp
  refine ⟨{ Rsv := [0, 0], Frag := 0, AType := atyp, DstAddr := addr, DstPort := [hi, lo],
            Data := d }, ?_, rfl, rfl, rfl, rfl, rfl, rfl, ?_⟩
  · simp only [NewUDPDatagram, hsp]
  · simp [UDPDatagram.ToBytes]

/-! ## Negotiation and requests: parsing, write counts, returned errors -/

/-- C18: on an input `[v, n] ++ ms ++ rest` with `n` the length of `ms`: for `v = 5`,
`NewClientAuthMassage` succeeds with `Version = 5`, `NMethods = n`, `Methods = ms` and
leaves `rest` unread; for `v ≠ 5` it fails with `ErrVersion` having read the first two
bytes only. -/
theorem auth_message_parse (tr : List Event) (v : Nat) (ms rest : Bytes) :
    (v = 5 →
      NewClientAuthMassage { inp := [v, ms.length] ++ ms ++ rest, trace := tr }
        = (.ok { Version := 5, NMethods := ms.length, Methods := ms },
           { inp := rest, trace := tr })) ∧
    (v ≠ 5 →
      NewClientAuthMassage { inp := [v, ms.length] ++ ms ++ rest, trace := tr }
        = (.error Error.ErrVersion, { inp := ms ++ rest, trace := tr })) := by
  constructor
  · intro hv
    subst hv
    have h := NewClientAuthMassage_ok tr ms rest
    simpa using h
  · intro hv
    have h2 := readFull_append tr [v, ms.length] (ms ++ rest)
    simp only [List.length_cons, List.length_nil, List.cons_append, List.nil_append] at h2
    simp [NewClientAuthMassage, h2, SOCKS5Version, hv]

theorem auth_message_parse_witness :
    NewClientAuthMassage { inp := [5, [0, 2].length] ++ [0, 2] ++ [9], trace := [] }
        = (.ok { Version := 5, NMethods := [0, 2].length, Methods := [0, 2] },
           { inp := [9], trace := [] }) ∧
    NewClientAuthMassage { inp := [4, [0, 2].length] ++ [0, 2] ++ [9], trace := [] }
        = (.error Error.ErrVersion, { inp := [0, 2] ++ [9], trace := [] }) :=
  ⟨(auth_message_parse [] 5 [0, 2] [9]).1 rfl, (auth_message_parse [] 4 [0, 2] [9]).2 (by decide)⟩

theorem readFull_ge (inp : Bytes) (tr : List Event) (n : Nat) (h : n ≤ inp.length) :
    readFull { inp := inp, trace := tr } n
      = (.ok (inp.take n), { inp := inp.drop n, trace := tr }) := by
  unfold readFull
  by_cases h0 : n = 0
  · subst h0; simp
  · have hne : inp ≠ [] := by
      intro hnil; rw [hnil] at h; simp at h; exact h0 h
    have hlt : ¬ inp.length < n := by omega
    simp [h0, hne, hlt]

theorem readFull_lt (inp : Bytes) (tr : List Event) (n : Nat) (h : inp.length < n) :
    ∃ err rem, readFull { inp := inp, trace := tr } n = (.error err, { inp := rem, trace := tr }) ∧
      (err = Error.EOF ∨ err = Error.ErrUnexpectedEOF) := by
  unfold readFull
  have h0 : n ≠ 0 := by omega
  by_cases hnil : inp = []
  · exact ⟨Error.EOF, inp, by simp [h0, hnil], Or.inl rfl⟩
  · exact ⟨Error.ErrUnexpectedEOF, [], by simp [h0, hnil, h], Or.inr rfl⟩

/-- C16 (counterexample): on the input `[0x04, 0x01, 0x00]` (wrong version) `auth`
returns `ErrVersion` and makes no write at all. -/
theorem auth_wrong_version_writes_nothing :
    auth closedEnv { inp := [0x04, 0x01, 0x00], trace := [] }
      = (some Error.ErrVersion, { inp := [0x00], trace := [] }) ∧
    (writes (auth closedEnv { inp := [0x04, 0x01, 0x00], trace := [] }).2.trace).length ≠ 1 := by
  decide

/-- C16 (amended): `auth` makes exactly one write, of `[0x05, 0x00]` or `[0x05, 0xFF]`,
when the input starts with a complete auth request of version 5; on a wrong version
or a truncated input it returns the read error and writes nothing. -/
theorem auth_write_count (e : Env) (c : Conn) :
    (completeAuthRequest c.inp →
      ∃ method, (method = 0x00 ∨ method = 0xFF) ∧
        (auth e c).2.trace = c.trace ++ [Event.write [0x05, method]]) ∧
    (¬ completeAuthRequest c.inp →
      (auth e c).2.trace = c.trace ∧ ∃ err, (auth e c).1 = some err) := by
  obtain ⟨inp, tr⟩ := c
  match inp with
  | [] =>
    refine ⟨fun h => absurd h (by simp [completeAuthRequest]), fun _ => ?_⟩
    simp [auth, NewClientAuthMassage, readFull]
  | [v] =>
    refine ⟨fun h => absurd h (by simp [completeAuthRequest]), fun _ => ?_⟩
    simp [auth, NewClientAuthMassage, readFull]
  | v :: n :: t =>
    by_cases hv : v = 5
    · subst hv
      have h2 : readFull { inp := 5 :: n :: t, trace := tr } 2
          = (.ok [5, n], { inp := t, trace := tr }) := readFull_two tr 5 n t
      by_cases hn : n ≤ t.length
      · have h3 := readFull_ge t tr n hn
        refine ⟨fun _ => ?_, fun h => absurd (show completeAuthRequest (5 :: n :: t) from ⟨rfl, hn⟩) h⟩
        cases hacc : authLoop (t.take n) with
        | true =>
          exact ⟨0x00, Or.inl rfl, by
            simp [auth, NewClientAuthMassage, h2, h3, SOCKS5Version, hacc,
              NewServerAuthMassage, connWrite, NoAuth]⟩
        | false =>
          exact ⟨0xFF, Or.inr rfl, by
            simp [auth, NewClientAuthMassage, h2, h3, SOCKS5Version, hacc,
              NewServerAuthMassage, connWrite, NoAcceptable]⟩
      · obtain ⟨err, rem, h3, _⟩ := readFull_lt t tr n (by omega)
        refine ⟨fun h => absurd h.2 hn, fun _ => ?_⟩
        simp [auth, NewClientAuthMassage, h2, h3, SOCKS5Version]
    · have h2 : readFull { inp := v :: n :: t, trace := tr } 2
          = (.ok [v, n], { inp := t, trace := tr }) := readFull_two tr v n t
      refine ⟨fun h => absurd h.1 hv, fun _ => ?_⟩
      simp [auth, NewClientAuthMassage, h2, hv, SOCKS5Version]

theorem auth_write_count_witness :
    (∃ method, (method = 0x00 ∨ method = 0xFF) ∧
      (auth closedEnv { inp := [0x05, 0x01, 0x02], trace := [] }).2.trace
        = [] ++ [Event.write [0x05, method]]) ∧
    ((auth closedEnv { inp := [0x05, 0x02, 0x00], trace := [] }).2.trace = [] ∧
      ∃ err, (auth closedEnv { inp := [0x05, 0x02, 0x00], trace := [] }).1 = some err) :=
  ⟨(auth_write_count closedEnv { inp := [0x05, 0x01, 0x02], trace := [] }).1
      ⟨rfl, by decide⟩,
   (auth_write_count closedEnv { inp := [0x05, 0x02, 0x00], trace := [] }).2
      (fun h => absurd h.2 (by decide))⟩

/-- C17: for every well-formed UDP_ASSOCIATE request the reply written is exactly
05 00 00 01 00 00 00 00 04 38 (unspecified IPv4 address, port 1080); when that write
succeeds the client address is stored and `udpForward` is started on the same
`AddrSpec`, whose listen address is the unspecified address with port 1080. -/
theorem udp_associate_reply (e : Env) (tr : List Event) (atyp hi lo : Nat)
    (addr rest : Bytes) (haddr : wellFormedAddr atyp addr) :
    let addrSpec : AddrSpec := { IP := none, FQDN := [], Port := UDPprot }
    request e { inp := [0x05, 0x03, 0x00, atyp] ++ addr ++ [hi, lo] ++ rest, trace := tr }
      = (if e.wfail then some Error.ErrWrite else none,
         { inp := rest,
           trace := tr ++ [Event.write [0x05, 0x00, 0x00, 0x01, 0, 0, 0, 0, 0x04, 0x38]]
             ++ (if e.wfail then []
                 else [Event.storeClient e.remoteAddr, Event.goUDPForward addrSpec]) }) ∧
    listenAddr addrSpec = { IP := none, Port := 1080 } ∧
    PutUint16 (toUint16 (listenAddr addrSpec).Port) = [0x04, 0x38] := by
  intro addrSpec
  obtain ⟨m, hm, hc, _, _, _, _⟩ :=
    NewClientRequestMassage_wellFormed tr 3 atyp hi lo addr rest (Or.inr (Or.inr rfl)) haddr
  refine ⟨?_, rfl, by decide⟩
  unfold request
  rw [hm]
  cases hw : e.wfail <;>
    simp [hc, Bind, UDPAssociate, handleUDPAssociate, SendReply, replyHead, To4, To16,
      connWrite, PutUint16, toUint16, successReply, SOCKS5Version, ReservedFeild, IPv4,
      UDPprot, hw, addrSpec]

theorem udp_associate_reply_witness :
    request closedEnv
        { inp := [0x05, 0x03, 0x00, 1] ++ [0, 0, 0, 0] ++ [0, 0] ++ [], trace := [] }
      = (if closedEnv.wfail then some Error.ErrWrite else none,
         { inp := [],
           trace := [] ++ [Event.write [0x05, 0x00, 0x00, 0x01, 0, 0, 0, 0, 0x04, 0x38]]
             ++ (if closedEnv.wfail then []
                 else [Event.storeClient closedEnv.remoteAddr,
                       Event.goUDPForward { IP := none, FQDN := [], Port := UDPprot }]) }) :=
  (udp_associate_reply closedEnv [] 1 0 0 [0, 0, 0, 0] [] (Or.inl ⟨rfl, rfl⟩)).1

/-- C19 (the code at the failing input): a BIND request and a CONNECT request whose
dial is refused are both answered with a failure reply, and `request` returns no error
when the reply is written successfully. -/
theorem request_failure_reply_returns_nil :
    request closedEnv
        { inp := [0x05, 0x02, 0x00, 0x01, 127, 0, 0, 1, 0x1F, 0x90], trace := [] }
      = (none, { inp := [], trace := [Event.write [0x05, 0x07, 0x00, 0x01, 0, 0, 0, 0, 0, 0]] }) ∧
    request closedEnv
        { inp := [0x05, 0x01, 0x00, 0x01, 127, 0, 0, 1, 0x1F, 0x90], trace := [] }
      = (none,
         { inp := [],
           trace := [Event.dial (str "127.0.0.1:8080"),
                     Event.write [0x05, 0x05, 0x00, 0x01, 0, 0, 0, 0, 0, 0]] }) := by
  decide

/-! ## Truncated requests -/

theorem readAddress_truncated (tr : List Event) (atyp hi lo : Nat) (addr q : Bytes)
    (haddr : wellFormedAddr atyp addr) (hq : q <+: addr ++ [hi, lo])
    (hlen : q.length < addr.length + 2) :
    (∃ err c1, readAddress { inp := q, trace := tr } atyp = (.error err, c1) ∧
      (err = Error.EOF ∨ err = Error.ErrUnexpectedEOF)) ∨
    (∃ address q1, readAddress { inp := q, trace := tr } atyp
        = (.ok address, { inp := q1, trace := tr }) ∧ q1.length < 2) := by
  rcases haddr with ⟨ht, hl⟩ | ⟨ht, dom, hd⟩ | ⟨ht, hl⟩
  · by_cases h4 : q.length < 4
    · obtain ⟨err, rem, hr, he⟩ := readFull_lt q tr 4 h4
      exact Or.inl ⟨err, { inp := rem, trace := tr }, by simp [readAddress, ht, IPv4, IPV4Len, hr], he⟩
    · have hr := readFull_ge q tr 4 (by omega)
      refine Or.inr ⟨ipString ((q.take 4).take 4), q.drop 4, ?_, ?_⟩
      · simp [readAddress, ht, IPv4, IPV4Len, hr]
      · simp only [List.length_drop]; omega
  · subst hd
    cases q with
    | nil =>
      obtain ⟨err, rem, hr, he⟩ := readFull_lt [] tr 1 (by simp)
      exact Or.inl ⟨err, { inp := rem, trace := tr }, by simp [readAddress, ht, IPv4, DomainName, hr], he⟩
    | cons x q1 =>
      have hx : x = dom.length ∧ q1 <+: dom ++ [hi, lo] := by
        simpa [List.cons_prefix_cons] using hq
      obtain ⟨hx, _⟩ := hx
      subst hx
      have h1 := readFull_one tr dom.length q1
      simp only [List.length_cons] at hlen
      by_cases hL : q1.length < dom.length
      · obtain ⟨err, rem, hr, he⟩ := readFull_lt q1 tr dom.length hL
        exact Or.inl ⟨err, { inp := rem, trace := tr }, by simp [readAddress, ht, IPv4, DomainName, h1, hr], he⟩
      · have hr := readFull_ge q1 tr dom.length (by omega)
        refine Or.inr ⟨q1.take dom.length, q1.drop dom.length, ?_, ?_⟩
        · simp [readAddress, ht, IPv4, DomainName, h1, hr]
        · simp only [List.length_drop]; omega
  · by_cases h16 : q.length < 16
    · obtain ⟨err, rem, hr, he⟩ := readFull_lt q tr 16 h16
      exact Or.inl ⟨err, { inp := rem, trace := tr }, by simp [readAddress, ht, IPv4, IPv6, DomainName, IPV6Len, hr], he⟩
    · have hr := readFull_ge q tr 16 (by omega)
      refine Or.inr ⟨ipString ((q.take 16).take 16), q.drop 16, ?_, ?_⟩
      · simp [readAddress, ht, IPv4, IPv6, DomainName, IPV6Len, hr]
      · simp only [List.length_drop]; omega

/-- C15: for every well-formed request `r` and every proper prefix `p` of `r` (cut in
the header, in the address, inside the domain bytes or after one port byte),
`NewClientRequestMassage` on `p` fails with `io.EOF` or `io.ErrUnexpectedEOF`: never
with a protocol error and never with success. -/
theorem truncated_request_fails (tr : List Event) (cmd atyp hi lo : Nat) (addr p : Bytes)
    (hcmd : cmd = 1 ∨ cmd = 2 ∨ cmd = 3) (haddr : wellFormedAddr atyp addr)
    (hp : p <+: [0x05, cmd, 0x00, atyp] ++ addr ++ [hi, lo])
    (hne : p ≠ [0x05, cmd, 0x00, atyp] ++ addr ++ [hi, lo]) :
    (NewClientRequestMassage { inp := p, trace := tr }).1 = .error Error.EOF ∨
    (NewClientRequestMassage { inp := p, trace := tr }).1 = .error Error.ErrUnexpectedEOF := by
  have hlt : p.length < ([0x05, cmd, 0x00, atyp] ++ addr ++ [hi, lo]).length := by
    rcases Nat.lt_or_ge p.length ([0x05, cmd, 0x00, atyp] ++ addr ++ [hi, lo]).length with h | h
    · exact h
    · exact absurd (hp.eq_of_length (Nat.le_antisymm hp.length_le h)) hne
  have hat : atyp = 1 ∨ atyp = 3 ∨ atyp = 4 := by
    rcases haddr with ⟨ht, _⟩ | ⟨ht, _⟩ | ⟨ht, _⟩
    · exact Or.inl ht
    · exact Or.inr (Or.inl ht)
    · exact Or.inr (Or.inr ht)
  have hc : ¬ (¬ cmd = 1 ∧ ¬ cmd = 2 ∧ ¬ cmd = 3) := by omega
  have ha : ¬ (¬ atyp = 1 ∧ ¬ atyp = 3 ∧ ¬ atyp = 4) := by omega
  by_cases h4 : p.length < 4
  · obtain ⟨err, rem, hr, he⟩ := readFull_lt p tr 4 h4
    have : (NewClientRequestMassage { inp := p, trace := tr }).1 = .error err := by
      simp [NewClientRequestMassage, hr]
    rcases he with he | he <;> subst he
    · exact Or.inl this
    · exact Or.inr this
  · match p, hp, hlt, h4 with
    | b0 :: b1 :: b2 :: b3 :: q, hp, hlt, _ =>
      have hp2 : b0 = 5 ∧ b1 = cmd ∧ b2 = 0 ∧ b3 = atyp ∧ q <+: addr ++ [hi, lo] := by
        simpa [List.cons_prefix_cons] using hp
      obtain ⟨rfl, rfl, rfl, rfl, hq⟩ := hp2
      have hql : q.length < addr.length + 2 := by
        simp only [List.length_cons, List.length_append, List.length_nil] at hlt
        omega
      rcases readAddress_truncated tr b3 hi lo addr q haddr hq hql with
        ⟨err, c1, hr, he⟩ | ⟨address, q1, hr, hq1⟩
      · have : (NewClientRequestMassage { inp := 5 :: b1 :: 0 :: b3 :: q, trace := tr }).1
            = .error err := by
          simp [NewClientRequestMassage, readFull_four, SOCKS5Version, Connect, Bind,
            UDPAssociate, ReservedFeild, IPv4, DomainName, IPv6, hc, ha, hr]
        rcases he with he | he <;> subst he
        · exact Or.inl this
        · exact Or.inr this
      · obtain ⟨err, rem, hr2, he⟩ := readFull_lt q1 tr 2 hq1
        have : (NewClientRequestMassage { inp := 5 :: b1 :: 0 :: b3 :: q, trace := tr }).1
            = .error err := by
          simp [NewClientRequestMassage, readFull_four, SOCKS5Version, Connect, Bind,
            UDPAssociate, ReservedFeild, IPv4, DomainName, IPv6, hc, ha, hr, hr2]
        rcases he with he | he <;> subst he
        · exact Or.inl this
        · exact Or.inr this
    | [], _, _, h4 => exact absurd (by simp) h4
    | [_], _, _, h4 => exact absurd (by simp) h4
    | [_, _], _, _, h4 => exact absurd (by simp) h4
    | [_, _, _], _, _, h4 => exact absurd (by simp) h4

theorem truncated_request_fails_witness :
    (NewClientRequestMassage { inp := [0x05, 0x01, 0x00, 0x01, 192, 168, 0, 1, 0x1F], trace := [] }).1
        = .error Error.EOF ∨
    (NewClientRequestMassage { inp := [0x05, 0x01, 0x00, 0x01, 192, 168, 0, 1, 0x1F], trace := [] }).1
        = .error Error.ErrUnexpectedEOF :=
  truncated_request_fails [] 1 1 0x1F 0x90 [192, 168, 0, 1]
    [0x05, 0x01, 0x00, 0x01, 192, 168, 0, 1, 0x1F] (Or.inl rfl) (Or.inl ⟨rfl, rfl⟩)
    ⟨[0x90], rfl⟩ (by decide)

/-! ## The UDP relay: fragments, authorization, session teardown -/

theorem NewUDPDatagram_Frag (a : Option Bytes) (data : Bytes) (d : UDPDatagram)
    (h : NewUDPDatagram a data = .ok d) : d.Frag = 0 := by
  unfold NewUDPDatagram at h
  split at h
  · cases h
  · cases h; rfl

theorem decoded_Frag_zero (b : Bytes) (d : UDPDatagram)
    (h : NewUDPDatagramFromBytes b = .ok d) : d.Frag = 0 := by
  unfold NewUDPDatagramFromBytes at h
  split at h
  · cases h
  · split at h
    · cases h
    · split at h
      · cases h
      · split at h
        · cases h
        · exact NewUDPDatagram_Frag _ _ d h

/-- C13 (the code at the failing input): a well-formed IPv4 datagram for 1.2.3.4:53
whose FRAG byte is 1 is not dropped; `relayToRemote` writes its payload to the outbound
socket and returns no error. -/
theorem relayToRemote_forwards_fragment :
    relayToRemote exampleLib [0, 0, 1, 1, 1, 2, 3, 4, 0, 53, 104, 105]
      = (none, [([104, 105], str "1.2.3.4:53")]) := by
  decide

theorem relayToRemote_not_ErrUDPFrag (lib : NetLib) (b : Bytes) (w : List (Bytes × Bytes))
    (h : relayToRemote lib b = (some Error.ErrUDPFrag, w)) :
    (∃ d, NewUDPDatagramFromBytes b = .ok d ∧
      (lib.ResolveUDPAddr (d.Address lib) = .error Error.ErrUDPFrag ∨
       ∃ t, lib.senderWrite d.Data t = some Error.ErrUDPFrag)) := by
  unfold relayToRemote at h
  split at h
  · next err he =>
    have : err = Error.ErrUDPFrag := by
      simp only [Prod.mk.injEq, Option.some.injEq] at h; exact h.1
    subst this
    have hc := datagram_cases b
    rcases hc with ⟨hs, _⟩ | ⟨hu, _⟩ | ⟨_, _, hl⟩
    · rw [NewUDPDatagramFromBytes_short b hs] at he; cases he
    · rw [NewUDPDatagramFromBytes_unknown b hu] at he; cases he
    · obtain ⟨n, _, _, hok⟩ := NewUDPDatagramFromBytes_long b hl
      rw [hok] at he; cases he
  · next d hd =>
    have hf := decoded_Frag_zero b d hd
    simp only [hf, ne_eq, not_true_eq_false, if_false] at h
    refine ⟨d, hd, ?_⟩
    split at h
    · next err he =>
      simp only [Prod.mk.injEq, Option.some.injEq] at h
      left; rw [he, h.1]
    · next t ht =>
      simp only [Prod.mk.injEq] at h
      right; exact ⟨t, h.1⟩

theorem findKey_removeKey (key : MapKey) (l : List (MapKey × MapValue)) :
    findKey key (removeKey key l) = none := by
  induction l with
  | nil => rfl
  | cons kv t ih =>
    obtain ⟨k, v⟩ := kv
    by_cases hk : k = key
    · simp [removeKey, hk, ih]
    · simp [removeKey, findKey, hk, ih]

theorem findKey_text_of_conn_keys (key : Bytes) (l : List (MapKey × MapValue))
    (h : ∀ kv ∈ l, ∃ id, kv.1 = MapKey.conn id) : findKey (MapKey.text key) l = none := by
  induction l with
  | nil => rfl
  | cons kv t ih =>
    obtain ⟨k, v⟩ := kv
    obtain ⟨id, hid⟩ := h (k, v) (List.mem_cons_self _ _)
    simp only at hid
    subst hid
    have := ih (fun kv hkv => h kv (List.mem_cons_of_mem _ hkv))
    simp [findKey, this]

theorem removeKey_subset (key : MapKey) (l : List (MapKey × MapValue)) :
    ∀ kv ∈ removeKey key l, kv ∈ l := by
  induction l with
  | nil => intro kv h; exact h
  | cons kv0 t ih =>
    obtain ⟨k, v⟩ := kv0
    intro kv h
    by_cases hk : k = key
    · simp only [removeKey, hk, if_true] at h
      exact List.mem_cons_of_mem _ (ih kv h)
    · simp only [removeKey, hk, if_false, List.mem_cons] at h
      rcases h with h | h
      · rw [h]; exact List.mem_cons_self _ _
      · exact List.mem_cons_of_mem _ (ih kv h)

theorem clientAfter_conn_keys (id : Nat) (tr : List Event) (m : SenderMap)
    (h : ∀ kv ∈ m.entries, ∃ i, kv.1 = MapKey.conn i) :
    ∀ kv ∈ (clientAfter id tr m).entries, ∃ i, kv.1 = MapKey.conn i := by
  induction tr generalizing m with
  | nil => exact h
  | cons ev t ih =>
    cases ev with
    | storeClient a =>
      apply ih
      intro kv hkv
      simp only [SenderMap.Store, List.mem_cons] at hkv
      rcases hkv with hkv | hkv
      · exact ⟨id, by rw [hkv]⟩
      · exact h kv (removeKey_subset _ _ kv hkv)
    | write b => exact ih m h
    | dial a => exact ih m h
    | goUDPForward a => exact ih m h
    | tcpForward => exact ih m h

/-- Whatever associations were recorded, by whichever control connections, a look-up
of the map `client` by an address string finds nothing: every key is a connection. -/
theorem client_Get_none (m : SenderMap) (h : ∀ kv ∈ m.entries, ∃ i, kv.1 = MapKey.conn i)
    (id : Nat) (tr : List Event) (saddr : Bytes) :
    (clientAfter id tr m).Get saddr = .ok none := by
  have := findKey_text_of_conn_keys saddr _ (clientAfter_conn_keys id tr m h)
  simp [SenderMap.Get, SenderMap.Load, this]

/-- C14 (the code at the failing input): after a UDP_ASSOCIATE on the control
connection with remote address "127.0.0.1:1080", the look-up `client.Get` of that very
address string reports it absent, and a well-formed datagram from it is dropped: no
session is created and nothing is sent. -/
theorem associated_client_is_dropped :
    associatedTrace
      = [Event.write [0x05, 0x00, 0x00, 0x01, 0, 0, 0, 0, 0x04, 0x38],
         Event.storeClient (str "127.0.0.1:1080"),
         Event.goUDPForward { IP := none, FQDN := [], Port := 1080 }] ∧
    associatedState.client.Get (str "127.0.0.1:1080") = .ok none ∧
    udpForwardStep exampleLib associatedState (str "127.0.0.1:1080")
        [0, 0, 0, 1, 1, 2, 3, 4, 0, 53, 104, 105]
      = .ok associatedState :=
  ⟨by decide, rfl, rfl⟩

theorem copyInto_length (dst src : Bytes) : (copyInto dst src).length = dst.length := by
  simp only [copyInto, List.length_append, List.length_take, List.length_drop]
  omega

theorem NewAddrByteFromString_length (lib : NetLib) (s a : Bytes)
    (h : NewAddrByteFromString lib s = .ok a) : 3 ≤ a.length := by
  unfold NewAddrByteFromString at h
  split at h
  · cases h
  · simp only at h
    split at h
    · cases h
    · next addr hmade =>
      split at h
      · cases h
      · cases h
        have hl : 3 ≤ addr.length := by
          split at hmade
          · split at hmade
            · cases hmade
              simp [copyInto_length]
            · cases hmade
              simp [copyInto_length]
          · split at hmade
            · cases hmade
            · cases hmade
              simp [copyInto_length]
        simp only [List.length_append, List.length_cons, List.length_nil, List.length_take]
        omega

theorem NewUDPDatagram_of_length (a data : Bytes) (h : 3 ≤ a.length) :
    ∃ d, NewUDPDatagram (some a) data = .ok d := by
  have hsp := Split_some a h
  exact ⟨{ Rsv := [0, 0], Frag := 0, AType := a.getD 0 0,
           DstAddr := (a.take (a.length - 2)).drop 1, DstPort := a.drop (a.length - 2),
           Data := data }, by simp only [NewUDPDatagram, hsp]⟩

theorem relayToClient_returns_iff (lib : NetLib) (reads : List ReadResult) :
    (∃ err, (relayToClient lib reads).1 = TaskResult.returned err) ↔
      ∃ r ∈ reads, readFails r ∨ encodeFails lib r ∨ writeBackFails lib r := by
  induction reads with
  | nil => simp [relayToClient]
  | cons r rest ih =>
    cases r with
    | fail err =>
      constructor
      · intro _
        exact ⟨ReadResult.fail err, List.mem_cons_self _ _, Or.inl trivial⟩
      · intro _
        exact ⟨err, by simp [relayToClient]⟩
    | packet data src =>
      cases hA : NewAddrByteFromString lib src with
      | error e =>
        constructor
        · intro _
          exact ⟨ReadResult.packet data src, List.mem_cons_self _ _, Or.inr (Or.inl ⟨e, hA⟩)⟩
        · intro _
          exact ⟨e, by simp [relayToClient, hA]⟩
      | ok bAddr =>
        obtain ⟨d, hd⟩ := NewUDPDatagram_of_length bAddr data
          (NewAddrByteFromString_length lib src bAddr hA)
        cases hw : lib.relayerWrite d.ToBytes with
        | some e =>
          constructor
          · intro _
            exact ⟨ReadResult.packet data src, List.mem_cons_self _ _,
              Or.inr (Or.inr ⟨bAddr, d, e, hA, hd, hw⟩)⟩
          · intro _
            exact ⟨e, by simp [relayToClient, hA, hd, hw]⟩
        | none =>
          have hstep : (relayToClient lib (ReadResult.packet data src :: rest)).1
              = (relayToClient lib rest).1 := by
            simp [relayToClient, hA, hd, hw]
          rw [hstep, ih]
          constructor
          · rintro ⟨r, hr, hf⟩
            exact ⟨r, List.mem_cons_of_mem _ hr, hf⟩
          · rintro ⟨r, hr, hf⟩
            rcases List.mem_cons.1 hr with hr | hr
            · subst hr
              rcases hf with hf | hf | hf
              · exact absurd hf (by simp [readFails])
              · obtain ⟨e, he⟩ := hf
                rw [hA] at he; cases he
              · obtain ⟨b2, d2, e, h1, h2, h3⟩ := hf
                rw [hA] at h1; cases h1
                rw [hd] at h2; cases h2
                rw [hw] at h3; cases h3
            · exact ⟨r, hr, hf⟩

theorem Get_Delete (m : SenderMap) (key : Bytes) :
    (m.Delete (MapKey.text key)).Get key = .ok none := by
  simp [SenderMap.Get, SenderMap.Load, SenderMap.Delete, findKey_removeKey]

/-- C20 (counterexample): the read from the outbound socket succeeds and the write of
the encapsulated datagram back to the client fails; `relayToClient` returns that
error, and the session is removed from the table and its socket closed. -/
theorem relay_task_ends_on_write_failure :
    relayToClient failingRelayLib [ReadResult.packet [104, 105] (str "1.2.3.4:53")]
      = (TaskResult.returned Error.ErrWrite, [[0, 0, 0, 1, 1, 2, 3, 4, 0, 53, 104, 105]]) ∧
    sessionTask failingRelayLib
        { client := { entries := [] },
          senders := { entries := [(MapKey.text (str "127.0.0.1:1080"), MapValue.packetConn 0)] },
          opened := 1, tasks := [(0, str "127.0.0.1:1080")], sent := [], closed := [] }
        (str "127.0.0.1:1080") [ReadResult.packet [104, 105] (str "1.2.3.4:53")]
      = .ok { client := { entries := [] }, senders := { entries := [] },
              opened := 1, tasks := [(0, str "127.0.0.1:1080")], sent := [], closed := [0] } :=
  ⟨by decide, rfl⟩

/-- C20 (amended): a `relayToClient` task ends exactly when a turn of its loop fails,
be it the read from the session's outbound socket, the encoding of the sender address
or the write of the encapsulated datagram back to the client; when it has ended the
session is removed from the table and its outbound socket closed, and while it is
blocked in a read the table is untouched. -/
theorem relay_task_teardown (lib : NetLib) (reads : List ReadResult) (st : RelayState)
    (saddr : Bytes) (sock : Nat) (hs : st.senders.Get saddr = .ok (some sock)) :
    ((∃ err, (relayToClient lib reads).1 = TaskResult.returned err) ↔
      ∃ r ∈ reads, readFails r ∨ encodeFails lib r ∨ writeBackFails lib r) ∧
    ((∃ err, (relayToClient lib reads).1 = TaskResult.returned err) →
      ∃ st1, sessionTask lib st saddr reads = .ok st1 ∧
        st1.senders.Get saddr = .ok none ∧ st1.closed = st.closed ++ [sock]) ∧
    ((relayToClient lib reads).1 = TaskResult.blocked →
      sessionTask lib st saddr reads = .ok st) := by
  refine ⟨relayToClient_returns_iff lib reads, ?_, ?_⟩
  · rintro ⟨err, he⟩
    refine ⟨{ st with senders := st.senders.Delete (MapKey.text saddr),
                      closed := st.closed ++ [sock] }, ?_, Get_Delete _ _, rfl⟩
    simp [sessionTask, he, SenderMap.Del, hs]
  · intro hb
    simp [sessionTask, hb]

theorem relay_task_teardown_witness :
    ((∃ err, (relayToClient failingRelayLib
        [ReadResult.packet [104, 105] (str "1.2.3.4:53")]).1 = TaskResult.returned err) ↔
      ∃ r ∈ [ReadResult.packet [104, 105] (str "1.2.3.4:53")],
        readFails r ∨ encodeFails failingRelayLib r ∨ writeBackFails failingRelayLib r) ∧
    ((∃ err, (relayToClient failingRelayLib
        [ReadResult.packet [104, 105] (str "1.2.3.4:53")]).1 = TaskResult.returned err) →
      ∃ st1, sessionTask failingRelayLib
          { client := { entries := [] },
            senders := { entries := [(MapKey.text (str "a"), MapValue.packetConn 0)] },
            opened := 1, tasks := [], sent := [], closed := [] }
          (str "a") [ReadResult.packet [104, 105] (str "1.2.3.4:53")] = .ok st1 ∧
        st1.senders.Get (str "a") = .ok none ∧ st1.closed = [] ++ [0]) ∧
    ((relayToClient failingRelayLib
        [ReadResult.packet [104, 105] (str "1.2.3.4:53")]).1 = TaskResult.blocked →
      sessionTask failingRelayLib
          { client := { entries := [] },
            senders := { entries := [(MapKey.text (str "a"), MapValue.packetConn 0)] },
            opened := 1, tasks := [], sent := [], closed := [] }
          (str "a") [ReadResult.packet [104, 105] (str "1.2.3.4:53")]
        = .ok { client := { entries := [] },
                senders := { entries := [(MapKey.text (str "a"), MapValue.packetConn 0)] },
                opened := 1, tasks := [], sent := [], closed := [] }) :=
  relay_task_teardown failingRelayLib [ReadResult.packet [104, 105] (str "1.2.3.4:53")]
    { client := { entries := [] },
      senders := { entries := [(MapKey.text (str "a"), MapValue.packetConn 0)] },
      opened := 1, tasks := [], sent := [], closed := [] }
    (str "a") 0 rfl

/-! ## The session table, one turn at a time -/

theorem removeKey_eq_filter (key : MapKey) (l : List (MapKey × MapValue)) :
    removeKey key l = l.filter (fun kv => decide (kv.1 ≠ key)) := by
  induction l with
  | nil => rfl
  | cons kv t ih =>
    obtain ⟨k, v⟩ := kv
    by_cases hk : k = key
    · simp [removeKey, hk, ih]
    · simp [removeKey, hk, ih]

theorem keysDistinct_Store (m : SenderMap) (key : MapKey) (value : MapValue)
    (h : keysDistinct m) : keysDistinct (m.Store key value) := by
  unfold keysDistinct at h ⊢
  simp only [SenderMap.Store, List.map_cons, List.nodup_cons]
  constructor
  · rw [removeKey_eq_filter]
    intro hmem
    obtain ⟨kv, hkv, hk⟩ := List.mem_map.1 hmem
    have := (List.mem_filter.1 hkv).2
    simp only [ne_eq, decide_not, Bool.not_eq_true', decide_eq_false_iff_not] at this
    exact this hk
  · rw [removeKey_eq_filter]
    exact h.sublist ((List.filter_sublist _).map _)

theorem Get_Store (m : SenderMap) (key : Bytes) (s : Nat) :
    (m.Store (MapKey.text key) (MapValue.packetConn s)).Get key = .ok (some s) := by
  simp [SenderMap.Get, SenderMap.Load, SenderMap.Store, findKey]

/-- One turn of the loop of `udpForward`, run by itself, keeps one entry per client
address and opens a socket (and starts a task) only for an address that has none. -/
theorem udpForwardStep_one_socket_per_client (lib : NetLib) (st st1 : RelayState)
    (saddr datagram : Bytes) (h : udpForwardStep lib st saddr datagram = .ok st1)
    (hd : keysDistinct st.senders) :
    keysDistinct st1.senders ∧
    ((st1.opened = st.opened ∧ st1.senders = st.senders ∧ st1.tasks = st.tasks) ∨
     (st1.opened = st.opened + 1 ∧ st.senders.Get saddr = .ok none ∧
      st1.senders.Get saddr = .ok (some st.opened) ∧
      st1.tasks = st.tasks ++ [(st.opened, saddr)])) := by
  unfold udpForwardStep at h
  split at h
  · cases h
  · cases h; exact ⟨hd, Or.inl ⟨rfl, rfl, rfl⟩⟩
  · split at h
    · cases h
    · cases h; exact ⟨hd, Or.inl ⟨rfl, rfl, rfl⟩⟩
    · next hget =>
      split at h
      · cases h; exact ⟨hd, Or.inl ⟨rfl, rfl, rfl⟩⟩
      · cases h
        exact ⟨keysDistinct_Store _ _ _ hd, Or.inr ⟨rfl, hget, Get_Store _ _ _, rfl⟩⟩

/-! ## Decoding never panics; encoding then decoding -/

/-- The outcomes of `NewAddrByteFromByte`: `ErrBadRequest`, `ErrAddrType`, or the first
`n` bytes of the buffer, `n` being the length its address type implies. -/
theorem NewAddrByteFromByte_cases (b3 : Bytes) :
    NewAddrByteFromByte b3 = .error Error.ErrBadRequest ∨
    NewAddrByteFromByte b3 = .error Error.ErrAddrType ∨
    ∃ n, 4 ≤ n ∧ n ≤ b3.length ∧
      ((b3.getD 0 0 = 1 ∧ n = 7) ∨ (b3.getD 0 0 = 3 ∧ n = 4 + b3.getD 1 0) ∨
        (b3.getD 0 0 = 4 ∧ n = 19)) ∧
      NewAddrByteFromByte b3 = .ok (b3.take n) := by
  have hc : (b3.length < 1 ∨ (b3.getD 0 0 = 1 ∧ b3.length < 7) ∨
        (b3.getD 0 0 = 4 ∧ b3.length < 19) ∨
        (b3.getD 0 0 = 3 ∧ (b3.length < 2 ∨ b3.length < 4 + b3.getD 1 0))) ∨
      (1 ≤ b3.length ∧ b3.getD 0 0 ≠ 1 ∧ b3.getD 0 0 ≠ 3 ∧ b3.getD 0 0 ≠ 4) ∨
      ((b3.getD 0 0 = 1 ∧ 7 ≤ b3.length) ∨ (b3.getD 0 0 = 3 ∧ 4 + b3.getD 1 0 ≤ b3.length) ∨
        (b3.getD 0 0 = 4 ∧ 19 ≤ b3.length)) := by
    omega
  rcases hc with hs | ⟨h1, hu⟩ | hl
  · exact Or.inl (NewAddrByteFromByte_short b3 hs)
  · exact Or.inr (Or.inl (NewAddrByteFromByte_unknown b3 h1 hu))
  · right; right
    rcases hl with ⟨ht, hl⟩ | ⟨ht, hl⟩ | ⟨ht, hl⟩
    · exact ⟨7, by omega, hl, Or.inl ⟨ht, rfl⟩,
        NewAddrByteFromByte_ok b3 7 (Or.inl ⟨ht, rfl⟩) hl⟩
    · exact ⟨4 + b3.getD 1 0, by omega, hl, Or.inr (Or.inl ⟨ht, rfl⟩),
        NewAddrByteFromByte_ok b3 _ (Or.inr (Or.inl ⟨ht, rfl⟩)) hl⟩
    · exact ⟨19, by omega, hl, Or.inr (Or.inr ⟨ht, rfl⟩),
        NewAddrByteFromByte_ok b3 19 (Or.inr (Or.inr ⟨ht, rfl⟩)) hl⟩

/-- C22: for every buffer `b`, of any length and content, neither `NewAddrByteFromByte`
nor `NewUDPDatagramFromBytes` (through `NewAddrByteFromByte`, `AddrByte.Split` and
`NewUDPDatagram`) panics.  Every read `b[i]` and every slice `b[lo:hi]` on the way is
an `index` or `slice` of the model, which panic when out of range; each is reached
only behind a length check that puts it in range, and the result is `ErrBadRequest`,
`ErrAddrType` or a datagram. -/
theorem decode_never_panics (b : Bytes) :
    NewAddrByteFromByte b ≠ .error Error.panic ∧
    NewUDPDatagramFromBytes b ≠ .error Error.panic ∧
    (NewUDPDatagramFromBytes b = .error Error.ErrBadRequest ∨
     NewUDPDatagramFromBytes b = .error Error.ErrAddrType ∨
     ∃ d, NewUDPDatagramFromBytes b = .ok d) := by
  have h3 : NewUDPDatagramFromBytes b = .error Error.ErrBadRequest ∨
      NewUDPDatagramFromBytes b = .error Error.ErrAddrType ∨
      ∃ d, NewUDPDatagramFromBytes b = .ok d := by
    rcases datagram_cases b with ⟨hs, _⟩ | ⟨hu, _⟩ | ⟨_, _, hl⟩
    · exact Or.inl (NewUDPDatagramFromBytes_short b hs)
    · exact Or.inr (Or.inl (NewUDPDatagramFromBytes_unknown b hu))
    · obtain ⟨n, _, _, h⟩ := NewUDPDatagramFromBytes_long b hl
      exact Or.inr (Or.inr ⟨_, h⟩)
  refine ⟨?_, ?_, h3⟩
  · rcases NewAddrByteFromByte_cases b with h | h | ⟨n, _, _, _, h⟩ <;>
      · rw [h]; intro hp; cases hp
  · rcases h3 with h | h | ⟨d, h⟩ <;>
      · rw [h]; intro hp; cases hp

/-- C23: for every address blob `a` that `NewAddrByteFromByte` returns unchanged and
every payload `d`, `NewUDPDatagram(a, d)` succeeds, and decoding its `ToBytes` succeeds
and gives a datagram with the same `AType`, `DstAddr`, `DstPort` and `Data`, with
`Rsv = [0, 0]` and `Frag = 0`: the very same datagram. -/
theorem encode_decode_roundtrip (a d : Bytes) (h : NewAddrByteFromByte a = .ok a) :
    ∃ dg dec, NewUDPDatagram (some a) d = .ok dg ∧
      NewUDPDatagramFromBytes dg.ToBytes = .ok dec ∧
      dec.AType = dg.AType ∧ dec.DstAddr = dg.DstAddr ∧ dec.DstPort = dg.DstPort ∧
      dec.Data = dg.Data ∧ dec.Rsv = [0, 0] ∧ dec.Frag = 0 ∧ dec = dg := by
  -- the blob has exactly the length its type implies
  obtain ⟨n, hn4, hnle, ht, hok⟩ : ∃ n, 4 ≤ n ∧ n ≤ a.length ∧
      ((a.getD 0 0 = 1 ∧ n = 7) ∨ (a.getD 0 0 = 3 ∧ n = 4 + a.getD 1 0) ∨
        (a.getD 0 0 = 4 ∧ n = 19)) ∧ NewAddrByteFromByte a = .ok (a.take n) := by
    rcases NewAddrByteFromByte_cases a with he | he | hx
    · rw [he] at h; cases h
    · rw [he] at h; cases h
    · exact hx
  have htake : a.take n = a := by
    rw [hok] at h; exact Except.ok.inj h
  have hlen : a.length = n := by
    have := congrArg List.length htake
    rw [List.length_take] at this
    omega
  -- encoding
  have hsp := Split_some a (by omega)
  have hcat := Split_concat a (by omega)
  let dg : UDPDatagram :=
    { Rsv := [0, 0], Frag := 0, AType := a.getD 0 0,
      DstAddr := (a.take (a.length - 2)).drop 1, DstPort := a.drop (a.length - 2), Data := d }
  have henc : NewUDPDatagram (some a) d = .ok dg := by
    simp only [NewUDPDatagram, hsp, dg]
  have hbytes : dg.ToBytes = [0, 0, 0] ++ a ++ d := by
    have h1 : dg.ToBytes = [0, 0, 0] ++ ([a.getD 0 0] ++ (a.take (a.length - 2)).drop 1
        ++ a.drop (a.length - 2)) ++ d := by
      simp [UDPDatagram.ToBytes, dg]
    rw [h1, hcat]
  -- decoding
  have hg0 : (a ++ d).getD 0 0 = a.getD 0 0 := by
    cases a with
    | nil => simp at hnle; omega
    | cons x t => simp
  have hg1 : (a ++ d).getD 1 0 = a.getD 1 0 := by
    match a, hlen with
    | [], _ => simp at hnle; omega
    | [_], hl => simp at hl; omega
    | _ :: _ :: _, _ => simp
  have hA : NewAddrByteFromByte (a ++ d) = .ok a := by
    have := NewAddrByteFromByte_ok (a ++ d) n (by rw [hg0, hg1]; exact ht)
      (by simp only [List.length_append]; omega)
    rw [this, ← hlen, List.take_left]
  have hdec : NewUDPDatagramFromBytes dg.ToBytes = .ok dg := by
    rw [hbytes]
    have hl4 : ¬ ([0, 0, 0] ++ a ++ d).length < 4 := by
      simp only [List.length_append, List.length_cons, List.length_nil]; omega
    have hs3 := slice_from3 ([0, 0, 0] ++ a ++ d) (by omega)
    have hd3 : ([0, 0, 0] ++ a ++ d).drop 3 = a ++ d := by simp
    have hsd := slice_nat ([0, 0, 0] ++ a ++ d) (3 + a.length) ([0, 0, 0] ++ a ++ d).length
      (by simp only [List.length_append, List.length_cons, List.length_nil]; omega) (le_refl _)
    have hdd : (([0, 0, 0] ++ a ++ d).take ([0, 0, 0] ++ a ++ d).length).drop (3 + a.length) = d := by
      rw [List.take_length]
      have : (3 + a.length) = ([0, 0, 0] ++ a).length := by simp; omega
      rw [this, List.drop_left]
    rw [hdd] at hsd
    have e : (3 : Int) + (a.length : Int) = ((3 + a.length : Nat) : Int) := by omega
    simp only [NewUDPDatagramFromBytes, hl4, if_false]
    rw [hs3, hd3]
    simp only [hA]
    rw [e, hsd]
    exact henc
  exact ⟨dg, dg, henc, hdec, rfl, rfl, rfl, rfl, rfl, rfl, rfl⟩

theorem encode_decode_roundtrip_witness :
    ∃ dg dec, NewUDPDatagram (some [3, 2, 97, 98, 0, 80]) [104, 105] = .ok dg ∧
      NewUDPDatagramFromBytes dg.ToBytes = .ok dec ∧
      dec.AType = dg.AType ∧ dec.DstAddr = dg.DstAddr ∧ dec.DstPort = dg.DstPort ∧
      dec.Data = dg.Data ∧ dec.Rsv = [0, 0] ∧ dec.Frag = 0 ∧ dec = dg :=
  encode_decode_roundtrip [3, 2, 97, 98, 0, 80] [104, 105] rfl

end Socks5
